import Mathlib

/-!
Global context of magic variables (libsolidity/analysis/GlobalContext.cpp).

A shallow embedding of the container of implicit global objects of the compiler front
end: the name-to-id function `magicVariableToID`, the list built by
`constructMagicVariables` and extended by the `GlobalContext` constructor, and the
per-contract memoisation of the `this` and `super` declarations.

Conventions of the embedding.

* `solAssert(false, msg)` throws; a function that may throw returns `Except String _`,
  the string being the assertion message.
* A pointer to a `ContractDefinition` is a natural number (the identity of the
  definition); the null pointer is `none`.
* `make_shared` hands out a fresh address taken from a counter kept in the state
  (`Alloc`); no object owned by a `GlobalContext` is released during its life, so
  addresses are never reused. An `Instance` pairs the address with the immutable
  contents of the object, and two pointers denote the same instance exactly when the
  addresses agree.
* `TypeProvider`, `Type` and its subclasses are declared outside this translation unit.
  Every `TypeProvider` entry point used here is a constructor of `SolType`, so two types
  are equal exactly when they are built by the same entry point from equal arguments.
-/

namespace solidity.frontend

/-! ## Types handed out by the type provider -/

/-- The members of `MagicType::Kind` used in this translation unit. -/
inductive MagicType.Kind where
  | ABI
  | Block
  | Message
  | Transaction
  deriving DecidableEq, Repr

/-- The members of `FunctionType::Kind` used in this translation unit. -/
inductive FunctionType.Kind where
  | AddMod
  | Assert
  | BlockHash
  | ECRecover
  | GasLeft
  | KECCAK256
  | Log0
  | Log1
  | Log2
  | Log3
  | Log4
  | MulMod
  | Require
  | Revert
  | RIPEMD160
  | Selfdestruct
  | SHA256
  | Freeze
  | Unfreeze
  | FreezeExpireTime
  | MetaType
  | verifyMintProof
  | verifyBurnProof
  | verifyTransferProof
  | pedersenHash
  | BatchValidateSign
  | ValidateMultiSign
  deriving DecidableEq, Repr

/-- The mutability classification `StateMutability`. -/
inductive StateMutability where
  | Pure
  | View
  | NonPayable
  | Payable
  deriving DecidableEq, Repr

/-- The member of `DataLocation` used in this translation unit. -/
inductive DataLocation where
  | Memory
  deriving DecidableEq, Repr

/-- Identity of a `ContractDefinition` (the address of the AST node). -/
abbrev ContractDefinition := Nat

/-- Modelled from the spec: the type-construction facility (`TypeProvider`, declared in
`libsolidity/ast/TypeProvider.h`, absent from the sources) builds primitive types,
fixed-size and dynamic array types, function/signature types and the composite magic
type. Each entry point called by `GlobalContext.cpp` is one constructor; the arguments are
the arguments of the call, in the order of the call. -/
inductive SolType where
  /-- The call `TypeProvider::magic(kind)`. -/
  | magic (kind : MagicType.Kind)
  /-- The elementary type denoted by a type name inside a `strings{...}` argument. -/
  | elementary (typeName : String)
  /-- The call `TypeProvider::uint(bits)`; `TypeProvider::uint256()` is `uint 256`. -/
  | uint (bits : Nat)
  /-- The call `TypeProvider::fixedBytes(m)`. -/
  | fixedBytes (m : Nat)
  /-- The call `TypeProvider::boolean()`. -/
  | boolean
  /-- The call `TypeProvider::address()`. -/
  | address
  /-- The call `TypeProvider::bytesMemory()`. -/
  | bytesMemory
  /-- The calls `TypeProvider::array(location, base)` (dynamic, `length = none`) and
  `TypeProvider::array(location, base, length)`. -/
  | array (location : DataLocation) (base : SolType) (length : Option Nat)
  /-- The call `TypeProvider::emptyTuple()`. -/
  | emptyTuple
  /-- The calls `TypeProvider::contract(c)` (`isSuper = false`) and
  `TypeProvider::contract(c, true)`. -/
  | contract (c : ContractDefinition) (isSuper : Bool)
  /-- The call `TypeProvider::function(parameterTypes, returnParameterTypes,
  parameterNames, returnParameterNames, kind, arbitraryParameters, stateMutability,
  declaration, f1, f2, f3, f4)` of the twelve-argument overload. -/
  | function (parameterTypes returnParameterTypes : List SolType)
      (parameterNames returnParameterNames : List String)
      (kind : FunctionType.Kind) (arbitraryParameters : Bool)
      (stateMutability : StateMutability) (declaration : Option Nat)
      (f1 f2 f3 f4 : Bool)
  deriving Repr

mutual
/-- Decision procedure for equality of types. -/
def SolType.decEq : (a b : SolType) → Decidable (a = b)
  | .magic k, b => by
    cases b with
    | magic k2 => exact decidable_of_iff (k = k2) (by simp)
    | _ => exact isFalse (by simp)
  | .elementary n, b => by
    cases b with
    | elementary n2 => exact decidable_of_iff (n = n2) (by simp)
    | _ => exact isFalse (by simp)
  | .uint n, b => by
    cases b with
    | uint n2 => exact decidable_of_iff (n = n2) (by simp)
    | _ => exact isFalse (by simp)
  | .fixedBytes n, b => by
    cases b with
    | fixedBytes n2 => exact decidable_of_iff (n = n2) (by simp)
    | _ => exact isFalse (by simp)
  | .boolean, b => by
    cases b with
    | boolean => exact isTrue rfl
    | _ => exact isFalse (by simp)
  | .address, b => by
    cases b with
    | address => exact isTrue rfl
    | _ => exact isFalse (by simp)
  | .bytesMemory, b => by
    cases b with
    | bytesMemory => exact isTrue rfl
    | _ => exact isFalse (by simp)
  | .array l t n, b => by
    cases b with
    | array l2 t2 n2 =>
      have : Decidable (t = t2) := SolType.decEq t t2
      exact decidable_of_iff (l = l2 ∧ t = t2 ∧ n = n2) (by simp)
    | _ => exact isFalse (by simp)
  | .emptyTuple, b => by
    cases b with
    | emptyTuple => exact isTrue rfl
    | _ => exact isFalse (by simp)
  | .contract c s, b => by
    cases b with
    | contract c2 s2 => exact decidable_of_iff (c = c2 ∧ s = s2) (by simp)
    | _ => exact isFalse (by simp)
  | .function ps rs pn rn k a m d f1 f2 f3 f4, b => by
    cases b with
    | function ps2 rs2 pn2 rn2 k2 a2 m2 d2 g1 g2 g3 g4 =>
      have : Decidable (ps = ps2) := SolType.decEqList ps ps2
      have : Decidable (rs = rs2) := SolType.decEqList rs rs2
      exact decidable_of_iff
        (ps = ps2 ∧ rs = rs2 ∧ pn = pn2 ∧ rn = rn2 ∧ k = k2 ∧ a = a2 ∧ m = m2 ∧ d = d2 ∧
          f1 = g1 ∧ f2 = g2 ∧ f3 = g3 ∧ f4 = g4) (by simp)
    | _ => exact isFalse (by simp)
/-- Decision procedure for equality of lists of types. -/
def SolType.decEqList : (a b : List SolType) → Decidable (a = b)
  | [], b => by
    cases b with
    | nil => exact isTrue rfl
    | cons _ _ => exact isFalse (by simp)
  | x :: xs, b => by
    cases b with
    | nil => exact isFalse (by simp)
    | cons y ys =>
      have : Decidable (x = y) := SolType.decEq x y
      have : Decidable (xs = ys) := SolType.decEqList xs ys
      exact decidable_of_iff (x = y ∧ xs = ys) (by simp)
end

instance : DecidableEq SolType := SolType.decEq

namespace TypeProvider

/-- The call `TypeProvider::uint256()`. -/
def uint256 : SolType := SolType.uint 256

/-- Modelled from the spec: the five-argument overload `TypeProvider::function(strings,
strings, kind, arbitraryParameters, stateMutability)`, declared in
`libsolidity/ast/TypeProvider.h` (absent from the sources) with the last two arguments
defaulting to `false` and `StateMutability::NonPayable`. A signature has ordered parameter
and return types, optional names, a kind, a mutability and flags: the type names are
turned into elementary types, the optional parameter and return names are absent, and the
remaining arguments of the twelve-argument overload are left at `nullptr` and `false`.
Only log0 to log4, selfdestruct and suicide rely on the defaults. -/
def function (parameterTypes returnParameterTypes : List String)
    (kind : FunctionType.Kind) (arbitraryParameters : Bool := false)
    (stateMutability : StateMutability := StateMutability.NonPayable) : SolType :=
  SolType.function (parameterTypes.map SolType.elementary)
    (returnParameterTypes.map SolType.elementary) [] []
    kind arbitraryParameters stateMutability none false false false false

end TypeProvider

/-! ## Magic variable ids -/

/-- Magic variables get negative ids for easy differentiation. -/
def magicVariableToID (_name : String) : Except String Int :=
  if _name = "abi" then .ok (-1)
  else if _name = "addmod" then .ok (-2)
  else if _name = "assert" then .ok (-3)
  else if _name = "block" then .ok (-4)
  else if _name = "blockhash" then .ok (-5)
  else if _name = "ecrecover" then .ok (-6)
  else if _name = "gasleft" then .ok (-7)
  else if _name = "keccak256" then .ok (-8)
  else if _name = "log0" then .ok (-10)
  else if _name = "log1" then .ok (-11)
  else if _name = "log2" then .ok (-12)
  else if _name = "log3" then .ok (-13)
  else if _name = "log4" then .ok (-14)
  else if _name = "msg" then .ok (-15)
  else if _name = "mulmod" then .ok (-16)
  else if _name = "now" then .ok (-17)
  else if _name = "require" then .ok (-18)
  else if _name = "revert" then .ok (-19)
  else if _name = "ripemd160" then .ok (-20)
  else if _name = "selfdestruct" then .ok (-21)
  else if _name = "sha256" then .ok (-22)
  else if _name = "sha3" then .ok (-23)
  else if _name = "suicide" then .ok (-24)
  else if _name = "super" then .ok (-25)
  else if _name = "tx" then .ok (-26)
  else if _name = "type" then .ok (-27)
  else if _name = "this" then .ok (-28)
  else if _name = "verifyMintProof" then .ok (-29)
  else if _name = "verifyBurnProof" then .ok (-30)
  else if _name = "verifyTransferProof" then .ok (-31)
  else if _name = "pedersenHash" then .ok (-32)
  else if _name = "batchvalidatesign" then .ok (-33)
  else if _name = "validatemultisign" then .ok (-34)
  else if _name = "freeze" then .ok (-35)
  else if _name = "unfreeze" then .ok (-36)
  else if _name = "freezeExpireTime" then .ok (-37)
  else .error ("Unknown magic variable: \"" ++ _name ++ "\".")

/-- The names compared against in the chain of `magicVariableToID`, in the order of the
chain. -/
def magicVariableNames : List String :=
  ["abi", "addmod", "assert", "block", "blockhash", "ecrecover", "gasleft", "keccak256",
   "log0", "log1", "log2", "log3", "log4", "msg", "mulmod", "now", "require", "revert",
   "ripemd160", "selfdestruct", "sha256", "sha3", "suicide", "super", "tx", "type", "this",
   "verifyMintProof", "verifyBurnProof", "verifyTransferProof", "pedersenHash",
   "batchvalidatesign", "validatemultisign", "freeze", "unfreeze", "freezeExpireTime"]

/-- Whether a result is a thrown assertion. -/
def Except.threw {α : Type} (r : Except String α) : Bool :=
  match r with
  | .ok _ => false
  | .error _ => true

/-! ## Declarations and their allocation -/

/-- The fields of a `MagicVariableDeclaration` set by its constructor
`MagicVariableDeclaration(id, name, type)`. -/
structure MagicVariableDeclaration where
  id : Int
  name : String
  type : SolType
  deriving DecidableEq, Repr

/-- A `MagicVariableDeclaration` object on the heap: its address and its contents. -/
structure Instance where
  addr : Nat
  decl : MagicVariableDeclaration
  deriving DecidableEq, Repr

/-- Computations that allocate and may throw: the state is the next free address. -/
abbrev Alloc := StateT Nat (Except String)

/-- The call `make_shared<MagicVariableDeclaration>(id, name, type)`: a fresh object. -/
def make_shared (id : Int) (name : String) (type : SolType) : Alloc Instance :=
  fun next => .ok (⟨next, ⟨id, name, type⟩⟩, next + 1)

/-- Run the given allocating computations from left to right and collect the results
(the elements of a braced initialiser list). -/
def initializerList {α : Type} : List (Alloc α) → Alloc (List α)
  | [] => pure []
  | x :: xs => do
    let a ← x
    let as ← initializerList xs
    pure (a :: as)

/-- The lambda `magicVarDecl` of `constructMagicVariables`. -/
def magicVarDecl (_name : String) (_type : SolType) : Alloc Instance := do
  let id ← liftM (magicVariableToID _name)
  make_shared id _name _type

/-- The list of declarations returned by `constructMagicVariables`. -/
def constructMagicVariables : Alloc (List Instance) :=
  initializerList [
    magicVarDecl "abi" (SolType.magic MagicType.Kind.ABI),
    magicVarDecl
      "addmod"
      (TypeProvider.function
        ["uint256", "uint256", "uint256"]
        ["uint256"]
        FunctionType.Kind.AddMod
        false
        StateMutability.Pure),
    magicVarDecl
      "assert"
      (TypeProvider.function ["bool"] [] FunctionType.Kind.Assert false StateMutability.Pure),
    magicVarDecl "block" (SolType.magic MagicType.Kind.Block),
    magicVarDecl
      "blockhash"
      (TypeProvider.function
        ["uint256"] ["bytes32"] FunctionType.Kind.BlockHash false StateMutability.View),
    magicVarDecl
      "ecrecover"
      (TypeProvider.function
        ["bytes32", "uint8", "bytes32", "bytes32"]
        ["address"]
        FunctionType.Kind.ECRecover
        false
        StateMutability.Pure),
    magicVarDecl
      "gasleft"
      (TypeProvider.function [] ["uint256"] FunctionType.Kind.GasLeft false StateMutability.View),
    magicVarDecl
      "keccak256"
      (TypeProvider.function
        ["bytes memory"]
        ["bytes32"]
        FunctionType.Kind.KECCAK256
        false
        StateMutability.Pure),
    magicVarDecl "log0" (TypeProvider.function ["bytes32"] [] FunctionType.Kind.Log0),
    magicVarDecl
      "log1" (TypeProvider.function ["bytes32", "bytes32"] [] FunctionType.Kind.Log1),
    magicVarDecl
      "log2"
      (TypeProvider.function ["bytes32", "bytes32", "bytes32"] [] FunctionType.Kind.Log2),
    magicVarDecl
      "log3"
      (TypeProvider.function
        ["bytes32", "bytes32", "bytes32", "bytes32"] [] FunctionType.Kind.Log3),
    magicVarDecl
      "log4"
      (TypeProvider.function
        ["bytes32", "bytes32", "bytes32", "bytes32", "bytes32"] [] FunctionType.Kind.Log4),
    magicVarDecl "msg" (SolType.magic MagicType.Kind.Message),
    magicVarDecl
      "mulmod"
      (TypeProvider.function
        ["uint256", "uint256", "uint256"]
        ["uint256"]
        FunctionType.Kind.MulMod
        false
        StateMutability.Pure),
    magicVarDecl "now" TypeProvider.uint256,
    magicVarDecl
      "require"
      (TypeProvider.function ["bool"] [] FunctionType.Kind.Require false StateMutability.Pure),
    magicVarDecl
      "require"
      (TypeProvider.function
        ["bool", "string memory"]
        []
        FunctionType.Kind.Require
        false
        StateMutability.Pure),
    magicVarDecl
      "revert"
      (TypeProvider.function [] [] FunctionType.Kind.Revert false StateMutability.Pure),
    magicVarDecl
      "revert"
      (TypeProvider.function
        ["string memory"] [] FunctionType.Kind.Revert false StateMutability.Pure),
    magicVarDecl
      "ripemd160"
      (TypeProvider.function
        ["bytes memory"]
        ["bytes20"]
        FunctionType.Kind.RIPEMD160
        false
        StateMutability.Pure),
    magicVarDecl
      "selfdestruct"
      (TypeProvider.function ["address payable"] [] FunctionType.Kind.Selfdestruct),
    magicVarDecl
      "sha256"
      (TypeProvider.function
        ["bytes memory"] ["bytes32"] FunctionType.Kind.SHA256 false StateMutability.Pure),
    magicVarDecl
      "sha3"
      (TypeProvider.function
        ["bytes memory"]
        ["bytes32"]
        FunctionType.Kind.KECCAK256
        false
        StateMutability.Pure),
    magicVarDecl
      "suicide" (TypeProvider.function ["address payable"] [] FunctionType.Kind.Selfdestruct),
    magicVarDecl
      "freeze"
      (TypeProvider.function
        ["uint", "uint"]
        ["bool"]
        FunctionType.Kind.Freeze
        false
        StateMutability.NonPayable),
    magicVarDecl
      "unfreeze"
      (TypeProvider.function
        ["uint"] ["bool"] FunctionType.Kind.Unfreeze false StateMutability.NonPayable),
    magicVarDecl
      "freezeExpireTime"
      (TypeProvider.function
        ["uint"]
        ["uint"]
        FunctionType.Kind.FreezeExpireTime
        false
        StateMutability.NonPayable),
    magicVarDecl "tx" (SolType.magic MagicType.Kind.Transaction),
    magicVarDecl
      "type"
      (TypeProvider.function [] [] FunctionType.Kind.MetaType true StateMutability.Pure)
  ]

/-! ## The global context -/

/-- The key of the memoisation maps: a `ContractDefinition const*`, possibly null. -/
abbrev ContractKey := Option ContractDefinition

/-- A `std::map<ContractDefinition const*, shared_ptr<MagicVariableDeclaration>>` as an
association list; a null shared pointer is `none`. The map is never iterated, so the
order of the entries is immaterial; entries are only added through `touch`, which keeps
one entry per key. -/
abbrev PointerMap := List (ContractKey × Option Instance)

namespace PointerMap

/-- The entry stored under a key, if any (`std::map::find`). -/
def find : PointerMap → ContractKey → Option (Option Instance)
  | [], _ => none
  | (k1, v) :: m, k => if k1 = k then some v else find m k

/-- The side effect of `operator[]`: a key that is absent is inserted with a
value-initialised (null) shared pointer. -/
def touch (m : PointerMap) (k : ContractKey) : PointerMap :=
  match m.find k with
  | some _ => m
  | none => m ++ [(k, none)]

/-- The shared pointer that `operator[]` refers to. -/
def get (m : PointerMap) (k : ContractKey) : Option Instance :=
  match m.find k with
  | some v => v
  | none => none

/-- Assignment to the reference returned by `operator[]`. -/
def assign (m : PointerMap) (k : ContractKey) (v : Option Instance) : PointerMap :=
  (m.touch k).map (fun e => if e.1 = k then (e.1, v) else e)

end PointerMap

/-- The data members of `GlobalContext`, and the next free address of the allocator. -/
structure GlobalContext where
  m_magicVariables : List Instance
  m_currentContract : ContractKey
  m_thisPointer : PointerMap
  m_superPointer : PointerMap
  nextAddr : Nat
  deriving DecidableEq, Repr

/-- The call `v.push_back(x)`. -/
def push_back {α : Type} (v : List α) (x : α) : List α := v ++ [x]

namespace GlobalContext

/-- The statement `m_magicVariables.push_back(make_shared<MagicVariableDeclaration>(
magicVariableToID(name), name, type))` shared by the six `add...Method` members. -/
def pushMagicVariable (g : GlobalContext) (name : String) (type : SolType) :
    Except String GlobalContext := do
  let id ← magicVariableToID name
  let (p, next) ← make_shared id name type g.nextAddr
  pure { g with m_magicVariables := push_back g.m_magicVariables p, nextAddr := next }

/-- The member `GlobalContext::addVerifyMintProofMethod`. -/
def addVerifyMintProofMethod (g : GlobalContext) : Except String GlobalContext :=
  let parameterTypes : List SolType := []
  -- output bytes32[9]
  let parameterTypes := push_back parameterTypes
    (SolType.array DataLocation.Memory (SolType.fixedBytes 32) (some 9))
  -- bindingSignature bytes32[2]
  let parameterTypes := push_back parameterTypes
    (SolType.array DataLocation.Memory (SolType.fixedBytes 32) (some 2))
  -- value uint64
  let parameterTypes := push_back parameterTypes (SolType.uint 64)
  -- signHash bytes32
  let parameterTypes := push_back parameterTypes (SolType.fixedBytes 32)
  -- frontier bytes32[33]
  let parameterTypes := push_back parameterTypes
    (SolType.array DataLocation.Memory (SolType.fixedBytes 32) (some 33))
  -- leafCount uint256
  let parameterTypes := push_back parameterTypes TypeProvider.uint256
  let returnParameterTypes : List SolType := []
  let returnParameterTypes := push_back returnParameterTypes
    (SolType.array DataLocation.Memory (SolType.fixedBytes 32) none)
  let parameterNames : List String := []
  let parameterNames := push_back parameterNames "output"
  let parameterNames := push_back parameterNames "bindingSignature"
  let parameterNames := push_back parameterNames "value"
  let parameterNames := push_back parameterNames "signHash"
  let parameterNames := push_back parameterNames "frontier"
  let parameterNames := push_back parameterNames "leafCount"
  let returnParameterNames : List String := []
  let returnParameterNames := push_back returnParameterNames "msg"
  g.pushMagicVariable "verifyMintProof" (SolType.function
    parameterTypes
    returnParameterTypes
    parameterNames
    returnParameterNames
    FunctionType.Kind.verifyMintProof
    false
    StateMutability.Pure
    none
    false
    false
    false
    false)

/-- The member `GlobalContext::addVerifyBurnProofMethod`. -/
def addVerifyBurnProofMethod (g : GlobalContext) : Except String GlobalContext :=
  let parameterTypes : List SolType := []
  -- input bytes32[10]
  let parameterTypes := push_back parameterTypes
    (SolType.array DataLocation.Memory (SolType.fixedBytes 32) (some 10))
  -- spend_auth_sig bytes32[2]
  let parameterTypes := push_back parameterTypes
    (SolType.array DataLocation.Memory (SolType.fixedBytes 32) (some 2))
  -- value uint64
  let parameterTypes := push_back parameterTypes (SolType.uint 64)
  -- bindingSignature bytes32[2]
  let parameterTypes := push_back parameterTypes
    (SolType.array DataLocation.Memory (SolType.fixedBytes 32) (some 2))
  -- signHash bytes32
  let parameterTypes := push_back parameterTypes (SolType.fixedBytes 32)
  let returnParameterTypes : List SolType := []
  let returnParameterTypes := push_back returnParameterTypes SolType.boolean
  let parameterNames : List String := []
  let parameterNames := push_back parameterNames "input"
  let parameterNames := push_back parameterNames "spend_auth_sig"
  let parameterNames := push_back parameterNames "value"
  let parameterNames := push_back parameterNames "bindingSignature"
  let parameterNames := push_back parameterNames "signHash"
  let returnParameterNames : List String := []
  let returnParameterNames := push_back returnParameterNames "msg"
  g.pushMagicVariable "verifyBurnProof" (SolType.function
    parameterTypes
    returnParameterTypes
    parameterNames
    returnParameterNames
    FunctionType.Kind.verifyBurnProof
    false
    StateMutability.Pure
    none
    false
    false
    false
    false)

/-- The member `GlobalContext::addVerifyTransferProofMethod`. -/
def addVerifyTransferProofMethod (g : GlobalContext) : Except String GlobalContext :=
  let parameterTypes : List SolType := []
  -- bytes32[10][] input
  let parameterTypes := push_back parameterTypes
    (SolType.array DataLocation.Memory
      (SolType.array DataLocation.Memory (SolType.fixedBytes 32) (some 10)) none)
  -- spend_auth_sig bytes32[2][]
  let parameterTypes := push_back parameterTypes
    (SolType.array DataLocation.Memory
      (SolType.array DataLocation.Memory (SolType.fixedBytes 32) (some 2)) none)
  -- output bytes32[9][]
  let parameterTypes := push_back parameterTypes
    (SolType.array DataLocation.Memory
      (SolType.array DataLocation.Memory (SolType.fixedBytes 32) (some 9)) none)
  -- bindingSignature bytes32[2]
  let parameterTypes := push_back parameterTypes
    (SolType.array DataLocation.Memory (SolType.fixedBytes 32) (some 2))
  -- signHash bytes32
  let parameterTypes := push_back parameterTypes (SolType.fixedBytes 32)
  -- value uint256
  let parameterTypes := push_back parameterTypes (SolType.uint 64)
  -- frontier bytes32[33]
  let parameterTypes := push_back parameterTypes
    (SolType.array DataLocation.Memory (SolType.fixedBytes 32) (some 33))
  -- leafCount uint256
  let parameterTypes := push_back parameterTypes TypeProvider.uint256
  let returnParameterTypes : List SolType := []
  let returnParameterTypes := push_back returnParameterTypes
    (SolType.array DataLocation.Memory (SolType.fixedBytes 32) none)
  let parameterNames : List String := []
  let parameterNames := push_back parameterNames "input"
  let parameterNames := push_back parameterNames "spend_auth_sig"
  let parameterNames := push_back parameterNames "output"
  let parameterNames := push_back parameterNames "bindingSignature"
  let parameterNames := push_back parameterNames "signHash"
  let parameterNames := push_back parameterNames "value"
  let parameterNames := push_back parameterNames "frontier"
  let parameterNames := push_back parameterNames "leafCount"
  let returnParameterNames : List String := []
  let returnParameterNames := push_back returnParameterNames "msg"
  g.pushMagicVariable "verifyTransferProof" (SolType.function
    parameterTypes
    returnParameterTypes
    parameterNames
    returnParameterNames
    FunctionType.Kind.verifyTransferProof
    false
    StateMutability.Pure
    none
    false
    false
    false
    false)

/-- The member `GlobalContext::addPedersenHashMethod`. -/
def addPedersenHashMethod (g : GlobalContext) : Except String GlobalContext :=
  let parameterTypes : List SolType := []
  -- i uint32
  let parameterTypes := push_back parameterTypes (SolType.uint 32)
  -- left bytes32
  let parameterTypes := push_back parameterTypes (SolType.fixedBytes 32)
  -- right bytes32
  let parameterTypes := push_back parameterTypes (SolType.fixedBytes 32)
  let returnParameterTypes : List SolType := []
  let returnParameterTypes := push_back returnParameterTypes (SolType.fixedBytes 32)
  let parameterNames : List String := []
  let parameterNames := push_back parameterNames "i"
  let parameterNames := push_back parameterNames "left"
  let parameterNames := push_back parameterNames "right"
  let returnParameterNames : List String := []
  let returnParameterNames := push_back returnParameterNames "msg"
  g.pushMagicVariable "pedersenHash" (SolType.function
    parameterTypes
    returnParameterTypes
    parameterNames
    returnParameterNames
    FunctionType.Kind.pedersenHash
    false
    StateMutability.Pure
    none
    false
    false
    false
    false)

/-- The member `GlobalContext::addBatchValidateSignMethod`. -/
def addBatchValidateSignMethod (g : GlobalContext) : Except String GlobalContext :=
  -- bool multivalidatesign(bytes32 hash, bytes[] memory signatures, address[] memory addresses)
  let parameterTypes : List SolType := []
  let parameterTypes := push_back parameterTypes (SolType.fixedBytes 32)
  let parameterTypes := push_back parameterTypes
    (SolType.array DataLocation.Memory SolType.bytesMemory none)
  let parameterTypes := push_back parameterTypes
    (SolType.array DataLocation.Memory SolType.address none)
  let returnParameterTypes : List SolType := []
  let returnParameterTypes := push_back returnParameterTypes (SolType.fixedBytes 32)
  let parameterNames : List String := []
  let parameterNames := push_back parameterNames "hash"
  let parameterNames := push_back parameterNames "signatures"
  let parameterNames := push_back parameterNames "addresses"
  let returnParameterNames : List String := []
  let returnParameterNames := push_back returnParameterNames "ok"
  g.pushMagicVariable "batchvalidatesign" (SolType.function
    parameterTypes
    returnParameterTypes
    parameterNames
    returnParameterNames
    FunctionType.Kind.BatchValidateSign
    false
    StateMutability.Pure
    none
    false
    false
    false
    false)

/-- The member `GlobalContext::addValidateMultiSignMethod`. -/
def addValidateMultiSignMethod (g : GlobalContext) : Except String GlobalContext :=
  -- bool multivalidatesign(bytes32 hash, bytes[] memory signatures, address[] memory addresses)
  let parameterTypes : List SolType := []
  let parameterTypes := push_back parameterTypes SolType.address
  let parameterTypes := push_back parameterTypes TypeProvider.uint256
  let parameterTypes := push_back parameterTypes (SolType.fixedBytes 32)
  let parameterTypes := push_back parameterTypes
    (SolType.array DataLocation.Memory SolType.bytesMemory none)
  let returnParameterTypes : List SolType := []
  let returnParameterTypes := push_back returnParameterTypes SolType.boolean
  let parameterNames : List String := []
  let parameterNames := push_back parameterNames "address"
  let parameterNames := push_back parameterNames "permissonid"
  let parameterNames := push_back parameterNames "content"
  let parameterNames := push_back parameterNames "signatures"
  let returnParameterNames : List String := []
  let returnParameterNames := push_back returnParameterNames "ok"
  g.pushMagicVariable "validatemultisign" (SolType.function
    parameterTypes
    returnParameterTypes
    parameterNames
    returnParameterNames
    FunctionType.Kind.ValidateMultiSign
    false
    StateMutability.Pure
    none
    false
    false
    false
    false)

/-- The constructor `GlobalContext::GlobalContext()`: the member initialiser
`m_magicVariables{constructMagicVariables()}` followed by the body. The pointer
`m_currentContract` starts as the null pointer and both maps start empty. -/
def ctor : Except String GlobalContext := do
  let (magicVariables, next) ← constructMagicVariables 0
  let g : GlobalContext := {
    m_magicVariables := magicVariables
    m_currentContract := none
    m_thisPointer := []
    m_superPointer := []
    nextAddr := next }
  let g ← g.addBatchValidateSignMethod
  let g ← g.addValidateMultiSignMethod
  let g ← g.addVerifyMintProofMethod
  let g ← g.addVerifyBurnProofMethod
  let g ← g.addVerifyTransferProofMethod
  let g ← g.addPedersenHashMethod
  pure g

/-- The member `GlobalContext::setCurrentContract`. -/
def setCurrentContract (g : GlobalContext) (_contract : ContractDefinition) : GlobalContext :=
  { g with m_currentContract := some _contract }

/-- The member `GlobalContext::declarations`: the raw pointers of the magic variables, in
the order of the vector. -/
def declarations (g : GlobalContext) : List Instance :=
  g.m_magicVariables.foldl (fun declarations v => push_back declarations v) []

/-- The member `GlobalContext::currentThis`. The maps are `mutable`, so the call yields
the returned raw pointer (`none` for a null pointer) together with the updated context. -/
def currentThis (g : GlobalContext) : Except String (Option Instance × GlobalContext) := do
  -- the condition `!m_thisPointer[m_currentContract]`
  let g : GlobalContext := { g with m_thisPointer := g.m_thisPointer.touch g.m_currentContract }
  let g : GlobalContext ←
    match g.m_thisPointer.get g.m_currentContract with
    | some _ => pure g
    | none => do
      let type : SolType := SolType.emptyTuple
      let type : SolType :=
        match g.m_currentContract with
        | some c => SolType.contract c false
        | none => type
      let id ← magicVariableToID "this"
      let (p, next) ← make_shared id "this" type g.nextAddr
      pure { g with
        m_thisPointer := g.m_thisPointer.assign g.m_currentContract (some p)
        nextAddr := next }
  -- the statement `return m_thisPointer[m_currentContract].get()`
  let g : GlobalContext := { g with m_thisPointer := g.m_thisPointer.touch g.m_currentContract }
  pure (g.m_thisPointer.get g.m_currentContract, g)

/-- The member `GlobalContext::currentSuper`. -/
def currentSuper (g : GlobalContext) : Except String (Option Instance × GlobalContext) := do
  -- the condition `!m_superPointer[m_currentContract]`
  let g : GlobalContext :=
    { g with m_superPointer := g.m_superPointer.touch g.m_currentContract }
  let g : GlobalContext ←
    match g.m_superPointer.get g.m_currentContract with
    | some _ => pure g
    | none => do
      let type : SolType := SolType.emptyTuple
      let type : SolType :=
        match g.m_currentContract with
        | some c => SolType.contract c true
        | none => type
      let id ← magicVariableToID "super"
      let (p, next) ← make_shared id "super" type g.nextAddr
      pure { g with
        m_superPointer := g.m_superPointer.assign g.m_currentContract (some p)
        nextAddr := next }
  -- the statement `return m_superPointer[m_currentContract].get()`
  let g : GlobalContext :=
    { g with m_superPointer := g.m_superPointer.touch g.m_currentContract }
  pure (g.m_superPointer.get g.m_currentContract, g)

/-- A call of one of the public members on an existing context. -/
inductive Call where
  | setCurrentContract (_contract : ContractDefinition)
  | declarations
  | currentThis
  | currentSuper
  deriving DecidableEq, Repr

/-- The context after one call (the returned value is dropped). -/
def call (g : GlobalContext) : Call → Except String GlobalContext
  | Call.setCurrentContract c => pure (g.setCurrentContract c)
  | Call.declarations => pure g
  | Call.currentThis => do
    let r ← g.currentThis
    pure r.2
  | Call.currentSuper => do
    let r ← g.currentSuper
    pure r.2

/-- The context after a sequence of calls, made from left to right. -/
def run : List Call → GlobalContext → Except String GlobalContext
  | [], g => pure g
  | c :: cs, g => do
    let g1 ← g.call c
    run cs g1

/-- The context produced by the constructor (the empty context stands in for a
constructor that throws, which `ctor_eq_ok` rules out). -/
def initial : GlobalContext :=
  match ctor with
  | .ok g => g
  | .error _ => ⟨[], none, [], [], 0⟩

/-- The context after construction followed by a sequence of calls. -/
def session (calls : List Call) : Except String GlobalContext := do
  let g ← ctor
  run calls g

/-- A context is reachable when construction followed by some sequence of calls leads
to it. -/
def Reachable (g : GlobalContext) : Prop :=
  ∃ calls : List Call, session calls = Except.ok g

end GlobalContext

/-! ## Reading a declaration -/

/-- The kind of a function type, `none` for a type that is not a function type. -/
def SolType.kind : SolType → Option FunctionType.Kind
  | SolType.function _ _ _ _ kind _ _ _ _ _ _ _ => some kind
  | _ => none

/-- The mutability of a function type, `none` for a type that is not a function type. -/
def SolType.stateMutability : SolType → Option StateMutability
  | SolType.function _ _ _ _ _ _ stateMutability _ _ _ _ _ => some stateMutability
  | _ => none

/-- The parameter types of a function type (empty for other types). -/
def SolType.parameterTypes : SolType → List SolType
  | SolType.function parameterTypes _ _ _ _ _ _ _ _ _ _ _ => parameterTypes
  | _ => []

/-- The return types of a function type (empty for other types). -/
def SolType.returnParameterTypes : SolType → List SolType
  | SolType.function _ returnParameterTypes _ _ _ _ _ _ _ _ _ _ => returnParameterTypes
  | _ => []

/-- The entries of a list of declarations that carry the given name, in order. -/
def named (name : String) (l : List Instance) : List Instance :=
  l.filter (fun i => i.decl.name = name)

/-- The type given to `this` under a key (`currentThis`): the contract type of the
current contract, or the empty tuple when there is none. -/
def thisType : ContractKey → SolType
  | some c => SolType.contract c false
  | none => SolType.emptyTuple

/-- The type given to `super` under a key (`currentSuper`): the super view of the
current contract, or the empty tuple when there is none. -/
def superType : ContractKey → SolType
  | some c => SolType.contract c true
  | none => SolType.emptyTuple

/-- Invariant of a memoisation map: every entry holds a non-null pointer to a declaration
with the expected id, name and type for its key, below the next free address; keys are
not repeated; and different keys hold different addresses. -/
structure PointerMap.WellFormed (m : PointerMap) (id : Int) (name : String)
    (typeOf : ContractKey → SolType) (next : Nat) : Prop where
  entries : ∀ k v, (k, v) ∈ m →
    ∃ p : Instance, v = some p ∧ p.decl = ⟨id, name, typeOf k⟩ ∧ p.addr < next
  keys : (m.map Prod.fst).Nodup
  addrs : ∀ k1 k2 (p1 p2 : Instance), (k1, some p1) ∈ m → (k2, some p2) ∈ m →
    p1.addr = p2.addr → k1 = k2

/-- Invariant of the reachable contexts. -/
structure GlobalContext.WellFormed (g : GlobalContext) : Prop where
  catalog : g.m_magicVariables = GlobalContext.initial.m_magicVariables
  thisMap : g.m_thisPointer.WellFormed (-28) "this" thisType g.nextAddr
  superMap : g.m_superPointer.WellFormed (-25) "super" superType g.nextAddr

/-- The context after a sequence of calls (the calls never throw, see
`GlobalContext.WellFormed.run`; the fallback is the context itself). -/
def GlobalContext.after (calls : List GlobalContext.Call) (g : GlobalContext) :
    GlobalContext :=
  match GlobalContext.run calls g with
  | .ok s => s
  | .error _ => g

/-- The context after `setCurrentContract(5)`, `currentThis()` and `currentSuper()` on a
freshly constructed context. -/
def GlobalContext.sample : GlobalContext :=
  GlobalContext.initial.after [GlobalContext.Call.setCurrentContract 5,
    GlobalContext.Call.currentThis, GlobalContext.Call.currentSuper]

/-- The parameter names of a function type (empty for other types). -/
def SolType.parameterNames : SolType → List String
  | SolType.function _ _ parameterNames _ _ _ _ _ _ _ _ _ => parameterNames
  | _ => []

/-- The return names of a function type (empty for other types). -/
def SolType.returnParameterNames : SolType → List String
  | SolType.function _ _ _ returnParameterNames _ _ _ _ _ _ _ _ => returnParameterNames
  | _ => []

/-- The keys that have an entry in a memoisation map. -/
def PointerMap.keys (m : PointerMap) : List ContractKey := m.map Prod.fst

/-- The contracts passed to `setCurrentContract` in a sequence of calls, in order. -/
def GlobalContext.Call.contracts : List GlobalContext.Call → List ContractDefinition
  | [] => []
  | GlobalContext.Call.setCurrentContract c :: cs => c :: contracts cs
  | _ :: cs => contracts cs

deriving instance DecidableEq for Except

/-! ## The name-to-id function -/

/-- Outside the names of the chain the function throws, and only there. -/
theorem magicVariableToID_threw_iff (name : String) :
    Except.threw (magicVariableToID name) = true ↔ name ∉ magicVariableNames := by
  constructor
  · intro h hmem
    have hall : ∀ n ∈ magicVariableNames, Except.threw (magicVariableToID n) = false := by
      decide
    rw [hall name hmem] at h
    exact Bool.false_ne_true h
  · intro h
    simp only [magicVariableNames, List.mem_cons, List.mem_singleton, List.not_mem_nil,
      or_false, not_or] at h
    simp only [magicVariableToID, h, if_false, Except.threw]

/-- C1: `magicVariableToID` yields a negative integer for each of the 36 names of its
comparison chain, its result is determined by the name alone (for "assert" it is -3), and
it throws the assertion exactly for the names outside the chain, such as
"not_a_builtin_xyz". -/
theorem magicVariableToID_closed_set :
    magicVariableNames.length = 36 ∧ magicVariableNames.Nodup ∧
    (∀ name ∈ magicVariableNames, ∃ id : Int, magicVariableToID name = .ok id ∧ id < 0) ∧
    (∀ a b : String, a = b → magicVariableToID a = magicVariableToID b) ∧
    magicVariableToID "assert" = .ok (-3) ∧
    (∀ name : String,
      (∃ msg, magicVariableToID name = .error msg) ↔ name ∉ magicVariableNames) ∧
    magicVariableToID "not_a_builtin_xyz" =
      .error "Unknown magic variable: \"not_a_builtin_xyz\"." := by
  refine ⟨by decide, by decide, ?_, ?_, by decide, ?_, by decide⟩
  · intro name h
    have h2 : Except.threw (magicVariableToID name) = false := by
      have := (magicVariableToID_threw_iff name).not.mpr (not_not.mpr h)
      simpa using this
    have h3 : ∀ name ∈ magicVariableNames,
        (match magicVariableToID name with
          | .ok id => decide (id < 0)
          | .error _ => false) = true := by decide
    have h4 := h3 name h
    cases hr : magicVariableToID name with
    | ok id => rw [hr] at h4; exact ⟨id, rfl, by simpa using h4⟩
    | error msg => rw [hr] at h4; simp at h4
  · intro a b h
    rw [h]
  · intro name
    rw [← magicVariableToID_threw_iff]
    cases magicVariableToID name with
    | ok id => simp [Except.threw]
    | error msg => simp [Except.threw]

/-! ## The memoisation maps -/

namespace PointerMap

theorem find_append (m1 m2 : PointerMap) (k : ContractKey) :
    find (m1 ++ m2) k = (find m1 k).orElse (fun _ => find m2 k) := by
  induction m1 with
  | nil => simp [find]
  | cons e m1 ih =>
    obtain ⟨k1, v⟩ := e
    by_cases h : k1 = k
    · simp [find, h]
    · simp [find, h, ih]

theorem find_eq_none_iff (m : PointerMap) (k : ContractKey) :
    find m k = none ↔ ∀ e ∈ m, e.1 ≠ k := by
  induction m with
  | nil => simp [find]
  | cons e m ih =>
    obtain ⟨k1, v⟩ := e
    by_cases h : k1 = k
    · simp [find, h]
    · simp [find, h, ih]

theorem mem_of_find {m : PointerMap} {k : ContractKey} {v : Option Instance}
    (h : find m k = some v) : (k, v) ∈ m := by
  induction m with
  | nil => simp [find] at h
  | cons e m ih =>
    obtain ⟨k1, v1⟩ := e
    by_cases hk : k1 = k
    · simp [find, hk] at h
      simp [hk, h]
    · simp [find, hk] at h
      exact List.mem_cons_of_mem _ (ih h)

theorem find_of_mem {m : PointerMap} {k : ContractKey} {v : Option Instance}
    (hn : (m.map Prod.fst).Nodup) (h : (k, v) ∈ m) : find m k = some v := by
  induction m with
  | nil => simp at h
  | cons e m ih =>
    obtain ⟨k1, v1⟩ := e
    simp only [List.map_cons, List.nodup_cons] at hn
    rcases List.mem_cons.mp h with heq | hmem
    · cases heq
      simp [find]
    · have hne : k1 ≠ k := by
        intro hk
        apply hn.1
        rw [hk]
        exact List.mem_map.mpr ⟨(k, v), hmem, rfl⟩
      simp [find, hne, ih hn.2 hmem]

theorem map_ite_of_find_none {m : PointerMap} {k : ContractKey} (v : Option Instance)
    (h : find m k = none) :
    m.map (fun e => if e.1 = k then (e.1, v) else e) = m := by
  rw [find_eq_none_iff] at h
  conv_rhs => rw [← List.map_id m]
  apply List.map_congr_left
  intro e he
  simp [h e he]

/-- A key that is cached with a non-null pointer: `operator[]` changes nothing. -/
theorem touch_of_find {m : PointerMap} {k : ContractKey} {v : Option Instance}
    (h : find m k = some v) : touch m k = m ∧ get m k = v := by
  simp [touch, get, h]

/-- A key that is absent: after the null entry is inserted and assigned to, the map has
one more entry, the assigned one. -/
theorem assign_touch_of_find_none {m : PointerMap} {k : ContractKey} (v : Option Instance)
    (h : find m k = none) :
    get (touch m k) k = none ∧ assign (touch m k) k v = m ++ [(k, v)] ∧
      find (m ++ [(k, v)]) k = some v := by
  have h1 : touch m k = m ++ [(k, none)] := by simp [touch, h]
  have h2 : find (m ++ [(k, none)]) k = some none := by
    rw [find_append, h]
    simp [find]
  refine ⟨?_, ?_, ?_⟩
  · simp [h1, get, h2]
  · have h3 : touch (m ++ [(k, none)]) k = m ++ [(k, none)] := by simp [touch, h2]
    rw [h1, assign, h3, List.map_append, map_ite_of_find_none v h]
    simp
  · rw [find_append, h]
    simp [find]

/-- Adding a fresh entry for an absent key keeps the invariant of the map. -/
theorem WellFormed.insert {m : PointerMap} {id : Int} {name : String}
    {typeOf : ContractKey → SolType} {next : Nat}
    (hw : m.WellFormed id name typeOf next) {k : ContractKey} (h : find m k = none) :
    PointerMap.WellFormed (m ++ [(k, some ⟨next, ⟨id, name, typeOf k⟩⟩)]) id name typeOf
      (next + 1) := by
  have hk := (find_eq_none_iff m k).mp h
  refine ⟨?_, ?_, ?_⟩
  · intro k1 v hmem
    rcases List.mem_append.mp hmem with h1 | h1
    · obtain ⟨p, hp, hd, ha⟩ := hw.entries k1 v h1
      exact ⟨p, hp, hd, Nat.lt_succ_of_lt ha⟩
    · simp only [List.mem_singleton, Prod.mk.injEq] at h1
      obtain ⟨rfl, rfl⟩ := h1
      exact ⟨_, rfl, rfl, Nat.lt_succ_self _⟩
  · rw [List.map_append, List.nodup_append]
    refine ⟨hw.keys, by simp, ?_⟩
    intro a ha hb
    simp only [List.map_cons, List.map_nil, List.mem_singleton] at hb
    obtain ⟨e, he, rfl⟩ := List.mem_map.mp ha
    exact hk e he hb
  · intro k1 k2 p1 p2 h1 h2 ha
    rcases List.mem_append.mp h1 with h1 | h1 <;> rcases List.mem_append.mp h2 with h2 | h2
    · exact hw.addrs k1 k2 p1 p2 h1 h2 ha
    · obtain ⟨q, hq, _, hlt⟩ := hw.entries k1 _ h1
      simp only [List.mem_singleton, Prod.mk.injEq, Option.some.injEq] at h2
      obtain ⟨_, rfl⟩ := h2
      cases hq
      simp only at ha
      omega
    · obtain ⟨q, hq, _, hlt⟩ := hw.entries k2 _ h2
      simp only [List.mem_singleton, Prod.mk.injEq, Option.some.injEq] at h1
      obtain ⟨_, rfl⟩ := h1
      cases hq
      simp only at ha
      omega
    · simp only [List.mem_singleton, Prod.mk.injEq] at h1 h2
      rw [h1.1, h2.1]

/-- Raising the next free address keeps the invariant of a map. -/
theorem WellFormed.mono {m : PointerMap} {id : Int} {name : String}
    {typeOf : ContractKey → SolType} {next next2 : Nat}
    (hw : m.WellFormed id name typeOf next) (h : next ≤ next2) :
    m.WellFormed id name typeOf next2 := by
  refine ⟨?_, hw.keys, hw.addrs⟩
  intro k v hmem
  obtain ⟨p, hp, hd, ha⟩ := hw.entries k v hmem
  exact ⟨p, hp, hd, Nat.lt_of_lt_of_le ha h⟩

/-- In a well-formed map a key is either absent or cached with a non-null pointer. -/
theorem WellFormed.find_cases {m : PointerMap} {id : Int} {name : String}
    {typeOf : ContractKey → SolType} {next : Nat}
    (hw : m.WellFormed id name typeOf next) (k : ContractKey) :
    find m k = none ∨ ∃ p : Instance, find m k = some (some p) := by
  cases h : find m k with
  | none => exact Or.inl rfl
  | some v =>
    obtain ⟨p, hp, _, _⟩ := hw.entries k v (mem_of_find h)
    exact Or.inr ⟨p, by rw [hp]⟩

end PointerMap

/-! ## The members of the global context -/

namespace GlobalContext

/-- The constructor does not throw. -/
theorem ctor_eq_ok : ctor = .ok initial := by decide

theorem magicVariableToID_this : magicVariableToID "this" = .ok (-28) := by decide

theorem magicVariableToID_super : magicVariableToID "super" = .ok (-25) := by decide

/-- A cached key: `currentThis` returns the cached pointer and changes nothing. -/
theorem currentThis_of_cached {g : GlobalContext} {p : Instance}
    (h : g.m_thisPointer.find g.m_currentContract = some (some p)) :
    g.currentThis = .ok (some p, g) := by
  obtain ⟨h1, h2⟩ := PointerMap.touch_of_find h
  simp [currentThis, h1, h2, pure, Except.pure, bind, Except.bind]

/-- An absent key: `currentThis` allocates the declaration, stores it and returns it. -/
theorem currentThis_of_absent {g : GlobalContext}
    (h : g.m_thisPointer.find g.m_currentContract = none) :
    g.currentThis = .ok
      (some ⟨g.nextAddr, ⟨-28, "this", thisType g.m_currentContract⟩⟩,
        { g with
          m_thisPointer := g.m_thisPointer ++
            [(g.m_currentContract,
              some ⟨g.nextAddr, ⟨-28, "this", thisType g.m_currentContract⟩⟩)]
          nextAddr := g.nextAddr + 1 }) := by
  obtain ⟨h1, h2, h3⟩ := PointerMap.assign_touch_of_find_none
    (some ⟨g.nextAddr, ⟨-28, "this", thisType g.m_currentContract⟩⟩) h
  obtain ⟨h4, h5⟩ := PointerMap.touch_of_find h3
  have ht : (match g.m_currentContract with
      | some c => SolType.contract c false
      | none => SolType.emptyTuple) = thisType g.m_currentContract := by
    cases g.m_currentContract <;> rfl
  simp [currentThis, h1, h2, h4, h5, ht, magicVariableToID_this, make_shared, pure,
    Except.pure, bind, Except.bind]

/-- A cached key: `currentSuper` returns the cached pointer and changes nothing. -/
theorem currentSuper_of_cached {g : GlobalContext} {p : Instance}
    (h : g.m_superPointer.find g.m_currentContract = some (some p)) :
    g.currentSuper = .ok (some p, g) := by
  obtain ⟨h1, h2⟩ := PointerMap.touch_of_find h
  simp [currentSuper, h1, h2, pure, Except.pure, bind, Except.bind]

/-- An absent key: `currentSuper` allocates the declaration, stores it and returns it. -/
theorem currentSuper_of_absent {g : GlobalContext}
    (h : g.m_superPointer.find g.m_currentContract = none) :
    g.currentSuper = .ok
      (some ⟨g.nextAddr, ⟨-25, "super", superType g.m_currentContract⟩⟩,
        { g with
          m_superPointer := g.m_superPointer ++
            [(g.m_currentContract,
              some ⟨g.nextAddr, ⟨-25, "super", superType g.m_currentContract⟩⟩)]
          nextAddr := g.nextAddr + 1 }) := by
  obtain ⟨h1, h2, h3⟩ := PointerMap.assign_touch_of_find_none
    (some ⟨g.nextAddr, ⟨-25, "super", superType g.m_currentContract⟩⟩) h
  obtain ⟨h4, h5⟩ := PointerMap.touch_of_find h3
  have ht : (match g.m_currentContract with
      | some c => SolType.contract c true
      | none => SolType.emptyTuple) = superType g.m_currentContract := by
    cases g.m_currentContract <;> rfl
  simp [currentSuper, h1, h2, h4, h5, ht, magicVariableToID_super, make_shared, pure,
    Except.pure, bind, Except.bind]

/-- What `currentThis` does on a well-formed context. -/
theorem WellFormed.currentThis {g : GlobalContext} (hw : g.WellFormed) :
    ∃ (p : Instance) (s : GlobalContext), g.currentThis = .ok (some p, s) ∧ s.WellFormed ∧
      s.m_thisPointer.find g.m_currentContract = some (some p) ∧
      p.decl = ⟨-28, "this", thisType g.m_currentContract⟩ ∧
      s.m_currentContract = g.m_currentContract ∧
      s.m_magicVariables = g.m_magicVariables ∧
      s.m_superPointer = g.m_superPointer ∧
      (∀ k q, g.m_thisPointer.find k = some (some q) →
        s.m_thisPointer.find k = some (some q)) := by
  rcases hw.thisMap.find_cases g.m_currentContract with h | ⟨p, h⟩
  · refine ⟨_, _, currentThis_of_absent h, ⟨hw.catalog, hw.thisMap.insert h,
      hw.superMap.mono (Nat.le_succ _)⟩, ?_, rfl, rfl, rfl, rfl, ?_⟩
    · exact (PointerMap.assign_touch_of_find_none _ h).2.2
    · intro k q hq
      simp only [PointerMap.find_append, hq, Option.orElse]
  · obtain ⟨q, hq, hd, _⟩ := hw.thisMap.entries _ _ (PointerMap.mem_of_find h)
    cases hq
    exact ⟨p, g, currentThis_of_cached h, hw, h, hd, rfl, rfl, rfl, fun _ _ hq => hq⟩

/-- What `currentSuper` does on a well-formed context. -/
theorem WellFormed.currentSuper {g : GlobalContext} (hw : g.WellFormed) :
    ∃ (p : Instance) (s : GlobalContext), g.currentSuper = .ok (some p, s) ∧ s.WellFormed ∧
      s.m_superPointer.find g.m_currentContract = some (some p) ∧
      p.decl = ⟨-25, "super", superType g.m_currentContract⟩ ∧
      s.m_currentContract = g.m_currentContract ∧
      s.m_magicVariables = g.m_magicVariables ∧
      s.m_thisPointer = g.m_thisPointer ∧
      (∀ k q, g.m_superPointer.find k = some (some q) →
        s.m_superPointer.find k = some (some q)) := by
  rcases hw.superMap.find_cases g.m_currentContract with h | ⟨p, h⟩
  · refine ⟨_, _, currentSuper_of_absent h, ⟨hw.catalog, hw.thisMap.mono (Nat.le_succ _),
      hw.superMap.insert h⟩, ?_, rfl, rfl, rfl, rfl, ?_⟩
    · exact (PointerMap.assign_touch_of_find_none _ h).2.2
    · intro k q hq
      simp only [PointerMap.find_append, hq, Option.orElse]
  · obtain ⟨q, hq, hd, _⟩ := hw.superMap.entries _ _ (PointerMap.mem_of_find h)
    cases hq
    exact ⟨p, g, currentSuper_of_cached h, hw, h, hd, rfl, rfl, rfl, fun _ _ hq => hq⟩

/-- Every call on a well-formed context returns, keeps the invariant and the list of
magic variables, and keeps every cached pointer. -/
theorem WellFormed.call {g : GlobalContext} (hw : g.WellFormed) (c : Call) :
    ∃ s : GlobalContext, g.call c = .ok s ∧ s.WellFormed ∧
      (∀ k q, g.m_thisPointer.find k = some (some q) →
        s.m_thisPointer.find k = some (some q)) ∧
      (∀ k q, g.m_superPointer.find k = some (some q) →
        s.m_superPointer.find k = some (some q)) := by
  cases c with
  | setCurrentContract c =>
    exact ⟨_, rfl, ⟨hw.catalog, hw.thisMap, hw.superMap⟩, fun _ _ h => h, fun _ _ h => h⟩
  | declarations => exact ⟨g, rfl, hw, fun _ _ h => h, fun _ _ h => h⟩
  | currentThis =>
    obtain ⟨p, s, h, hs, _, _, _, _, hsup, hkeep⟩ := hw.currentThis
    refine ⟨s, ?_, hs, hkeep, ?_⟩
    · simp [GlobalContext.call, h, bind, Except.bind, pure, Except.pure]
    · intro k q hq
      rw [hsup]
      exact hq
  | currentSuper =>
    obtain ⟨p, s, h, hs, _, _, _, _, hthis, hkeep⟩ := hw.currentSuper
    refine ⟨s, ?_, hs, ?_, hkeep⟩
    · simp [GlobalContext.call, h, bind, Except.bind, pure, Except.pure]
    · intro k q hq
      rw [hthis]
      exact hq

/-- Every sequence of calls on a well-formed context returns, keeps the invariant and
keeps every cached pointer. -/
theorem WellFormed.run {g : GlobalContext} (hw : g.WellFormed) (calls : List Call) :
    ∃ s : GlobalContext, GlobalContext.run calls g = .ok s ∧ s.WellFormed ∧
      (∀ k q, g.m_thisPointer.find k = some (some q) →
        s.m_thisPointer.find k = some (some q)) ∧
      (∀ k q, g.m_superPointer.find k = some (some q) →
        s.m_superPointer.find k = some (some q)) := by
  induction calls generalizing g with
  | nil => exact ⟨g, rfl, hw, fun _ _ h => h, fun _ _ h => h⟩
  | cons c cs ih =>
    obtain ⟨s1, h1, hw1, ht1, hs1⟩ := hw.call c
    obtain ⟨s2, h2, hw2, ht2, hs2⟩ := ih hw1
    refine ⟨s2, ?_, hw2, fun k q h => ht2 k q (ht1 k q h), fun k q h => hs2 k q (hs1 k q h)⟩
    simp [GlobalContext.run, h1, h2, bind, Except.bind]

/-- The constructed context satisfies the invariant. -/
theorem WellFormed.initial : GlobalContext.initial.WellFormed := by
  have h1 : GlobalContext.initial.m_thisPointer = [] := by decide
  have h2 : GlobalContext.initial.m_superPointer = [] := by decide
  refine ⟨rfl, ?_, ?_⟩
  · rw [h1]
    exact ⟨by simp, by simp, by simp⟩
  · rw [h2]
    exact ⟨by simp, by simp, by simp⟩

/-- A session is a run from the constructed context. -/
theorem session_eq (calls : List Call) :
    session calls = GlobalContext.run calls GlobalContext.initial := by
  simp [session, ctor_eq_ok, bind, Except.bind]

/-- Every session returns. -/
theorem session_ok (calls : List Call) :
    ∃ g : GlobalContext, session calls = .ok g ∧ g.WellFormed := by
  obtain ⟨s, h, hw, _, _⟩ := WellFormed.initial.run calls
  exact ⟨s, by rw [session_eq, h], hw⟩

/-- Reachable contexts satisfy the invariant. -/
theorem Reachable.wellFormed {g : GlobalContext} (h : g.Reachable) : g.WellFormed := by
  obtain ⟨calls, hc⟩ := h
  obtain ⟨s, hs, hw⟩ := session_ok calls
  rw [hc] at hs
  cases hs
  exact hw

/-- The sample context is reachable. -/
theorem reachable_sample : GlobalContext.sample.Reachable :=
  ⟨[Call.setCurrentContract 5, Call.currentThis, Call.currentSuper], by decide⟩

/-- The constructed context is reachable. -/
theorem reachable_initial : GlobalContext.initial.Reachable := ⟨[], by decide⟩

theorem thisType_injective {k1 k2 : ContractKey} (h : thisType k1 = thisType k2) :
    k1 = k2 := by
  cases k1 <;> cases k2 <;> simp_all [thisType]

/-! ## Claims on the memoised declarations -/

/-- C2: in a reachable context, the pointer returned by `currentThis` is returned again by
every later `currentThis` made while the same contract (or no contract) is current,
whatever calls of `setCurrentContract`, `declarations`, `currentThis` and `currentSuper`
were made in between; likewise for `currentSuper`. -/
theorem currentThis_currentSuper_same_instance (g : GlobalContext) (hg : g.Reachable) :
    (∃ (a : Instance) (s1 : GlobalContext), g.currentThis = .ok (some a, s1) ∧
      ∀ (calls : List Call) (g2 : GlobalContext), GlobalContext.run calls s1 = .ok g2 →
        g2.m_currentContract = g.m_currentContract →
        ∃ s2 : GlobalContext, g2.currentThis = .ok (some a, s2)) ∧
    (∃ (b : Instance) (t1 : GlobalContext), g.currentSuper = .ok (some b, t1) ∧
      ∀ (calls : List Call) (g2 : GlobalContext), GlobalContext.run calls t1 = .ok g2 →
        g2.m_currentContract = g.m_currentContract →
        ∃ t2 : GlobalContext, g2.currentSuper = .ok (some b, t2)) := by
  have hw := hg.wellFormed
  constructor
  · obtain ⟨a, s1, h1, hw1, hfind, _⟩ := hw.currentThis
    refine ⟨a, s1, h1, ?_⟩
    intro calls g2 hrun hkey
    obtain ⟨s, hs, _, hkeep, _⟩ := hw1.run calls
    rw [hrun] at hs
    cases hs
    have h2 := hkeep _ _ hfind
    rw [← hkey] at h2
    exact ⟨g2, currentThis_of_cached h2⟩
  · obtain ⟨b, t1, h1, hw1, hfind, _⟩ := hw.currentSuper
    refine ⟨b, t1, h1, ?_⟩
    intro calls g2 hrun hkey
    obtain ⟨s, hs, _, _, hkeep⟩ := hw1.run calls
    rw [hrun] at hs
    cases hs
    have h2 := hkeep _ _ hfind
    rw [← hkey] at h2
    exact ⟨g2, currentSuper_of_cached h2⟩

/-- Witness of C2: in the sample context (contract 5 current, both declarations cached)
the calls `setCurrentContract(7)`, `currentThis()`, `currentSuper()`,
`setCurrentContract(5)` are made; `currentThis` and `currentSuper` then return the
instances at addresses 36 and 37 created before. -/
theorem currentThis_currentSuper_same_instance_witness :
    GlobalContext.sample.Reachable ∧
    GlobalContext.sample.currentThis =
      .ok (some ⟨36, ⟨-28, "this", SolType.contract 5 false⟩⟩, GlobalContext.sample) ∧
    GlobalContext.sample.currentSuper =
      .ok (some ⟨37, ⟨-25, "super", SolType.contract 5 true⟩⟩, GlobalContext.sample) ∧
    (∃ s2 : GlobalContext,
      (GlobalContext.sample.after [Call.setCurrentContract 7, Call.currentThis,
        Call.currentSuper, Call.setCurrentContract 5]).currentThis =
        .ok (some ⟨36, ⟨-28, "this", SolType.contract 5 false⟩⟩, s2)) ∧
    (∃ t2 : GlobalContext,
      (GlobalContext.sample.after [Call.setCurrentContract 7, Call.currentThis,
        Call.currentSuper, Call.setCurrentContract 5]).currentSuper =
        .ok (some ⟨37, ⟨-25, "super", SolType.contract 5 true⟩⟩, t2)) := by
  have ht : GlobalContext.sample.currentThis =
      .ok (some ⟨36, ⟨-28, "this", SolType.contract 5 false⟩⟩, GlobalContext.sample) := by
    decide
  have hs : GlobalContext.sample.currentSuper =
      .ok (some ⟨37, ⟨-25, "super", SolType.contract 5 true⟩⟩, GlobalContext.sample) := by
    decide
  obtain ⟨⟨a, s1, h1, k1⟩, ⟨b, t1, h2, k2⟩⟩ :=
    currentThis_currentSuper_same_instance GlobalContext.sample reachable_sample
  rw [ht] at h1
  rw [hs] at h2
  cases h1
  cases h2
  exact ⟨reachable_sample, ht, hs,
    k1 [Call.setCurrentContract 7, Call.currentThis, Call.currentSuper,
        Call.setCurrentContract 5]
      (GlobalContext.sample.after [Call.setCurrentContract 7, Call.currentThis,
        Call.currentSuper, Call.setCurrentContract 5]) (by decide) (by decide),
    k2 [Call.setCurrentContract 7, Call.currentThis, Call.currentSuper,
        Call.setCurrentContract 5]
      (GlobalContext.sample.after [Call.setCurrentContract 7, Call.currentThis,
        Call.currentSuper, Call.setCurrentContract 5]) (by decide) (by decide)⟩

/-- Counterexample to C3: right after construction no contract is current, and the
declarations returned by `currentThis` and by `currentSuper` both have the empty tuple
type. -/
theorem currentSuper_type_eq_currentThis_type_without_contract :
    GlobalContext.initial.m_currentContract = none ∧
    Except.map (fun r => Option.map (fun a => a.decl.type) r.1)
      GlobalContext.initial.currentThis = .ok (some SolType.emptyTuple) ∧
    Except.map (fun r => Option.map (fun a => a.decl.type) r.1)
      GlobalContext.initial.currentSuper = .ok (some SolType.emptyTuple) := by
  decide

/-- C3 as amended: in a reachable context `currentThis` followed by `currentSuper` return
declarations whose types are, when a contract `c` is current, the contract type of `c`
and the super view of `c`, which differ; when no contract is current both types are the
empty tuple. -/
theorem currentSuper_type_ne_currentThis_type (g : GlobalContext) (hg : g.Reachable) :
    ∃ (a b : Instance) (s t : GlobalContext),
      g.currentThis = .ok (some a, s) ∧ s.currentSuper = .ok (some b, t) ∧
      s.m_currentContract = g.m_currentContract ∧
      match g.m_currentContract with
      | some c =>
        a.decl.type = SolType.contract c false ∧ b.decl.type = SolType.contract c true ∧
          b.decl.type ≠ a.decl.type
      | none => a.decl.type = SolType.emptyTuple ∧ b.decl.type = SolType.emptyTuple := by
  obtain ⟨a, s, h1, hw1, _, hda, hkey, _⟩ := hg.wellFormed.currentThis
  obtain ⟨b, t, h2, _, _, hdb, _⟩ := hw1.currentSuper
  refine ⟨a, b, s, t, h1, h2, hkey, ?_⟩
  rw [hkey] at hdb
  cases hk : g.m_currentContract with
  | none =>
    rw [hk] at hda hdb
    simp [hda, hdb, thisType, superType]
  | some c =>
    rw [hk] at hda hdb
    simp [hda, hdb, thisType, superType]

/-- Witness of C3 as amended, at the sample context, where contract 5 is current. -/
theorem currentSuper_type_ne_currentThis_type_witness :
    GlobalContext.sample.Reachable ∧ GlobalContext.sample.m_currentContract = some 5 ∧
    ∃ (a b : Instance) (s t : GlobalContext),
      GlobalContext.sample.currentThis = .ok (some a, s) ∧
      s.currentSuper = .ok (some b, t) ∧
      a.decl.type = SolType.contract 5 false ∧ b.decl.type = SolType.contract 5 true ∧
      b.decl.type ≠ a.decl.type := by
  have hk : GlobalContext.sample.m_currentContract = some 5 := by decide
  obtain ⟨a, b, s, t, h1, h2, _, h3⟩ :=
    currentSuper_type_ne_currentThis_type GlobalContext.sample reachable_sample
  rw [hk] at h3
  exact ⟨reachable_sample, hk, a, b, s, t, h1, h2, h3⟩

/-- C4: in a reachable context `currentThis` returns a declaration named "this" whose type
is the empty tuple when no contract is current and the contract type of `c` when contract
`c` is current; and a later `currentThis` made while a different key is current returns
another instance (another address), of a different type. -/
theorem currentThis_type_and_distinct_keys (g : GlobalContext) (hg : g.Reachable) :
    ∃ (a : Instance) (s1 : GlobalContext), g.currentThis = .ok (some a, s1) ∧
      a.decl.name = "this" ∧
      (match g.m_currentContract with
        | some c => a.decl.type = SolType.contract c false
        | none => a.decl.type = SolType.emptyTuple) ∧
      ∀ (calls : List Call) (g2 : GlobalContext), GlobalContext.run calls s1 = .ok g2 →
        g2.m_currentContract ≠ g.m_currentContract →
        ∃ (b : Instance) (s2 : GlobalContext), g2.currentThis = .ok (some b, s2) ∧
          b.addr ≠ a.addr ∧ b ≠ a ∧ b.decl.type ≠ a.decl.type := by
  obtain ⟨a, s1, h1, hw1, hfind, hda, _⟩ := hg.wellFormed.currentThis
  refine ⟨a, s1, h1, by rw [hda], ?_, ?_⟩
  · cases hk : g.m_currentContract with
    | none => rw [hk] at hda; simp [hda, thisType]
    | some c => rw [hk] at hda; simp [hda, thisType]
  · intro calls g2 hrun hkey
    obtain ⟨s, hs, hw2, hkeep, _⟩ := hw1.run calls
    rw [hrun] at hs
    cases hs
    obtain ⟨b, s2, h2, hw3, hfind2, hdb, _, _, _, hkeep2⟩ := hw2.currentThis
    have ha := PointerMap.mem_of_find (hkeep2 _ _ (hkeep _ _ hfind))
    have hb := PointerMap.mem_of_find hfind2
    have haddr : b.addr ≠ a.addr := fun h => hkey (hw3.thisMap.addrs _ _ _ _ hb ha h)
    refine ⟨b, s2, h2, haddr, fun h => haddr (by rw [h]), ?_⟩
    rw [hda, hdb]
    exact fun h => hkey (thisType_injective h)

/-- Witness of C4: from the constructed context (no contract current), after
`setCurrentContract(5)`; and from the sample context (contract 5 current), after
`setCurrentContract(7)`. -/
theorem currentThis_type_and_distinct_keys_witness :
    GlobalContext.initial.Reachable ∧
    (∃ (a b : Instance) (s1 s2 : GlobalContext),
      GlobalContext.initial.currentThis = .ok (some a, s1) ∧
      a.decl.type = SolType.emptyTuple ∧
      (GlobalContext.after [Call.setCurrentContract 5]
        (GlobalContext.after [Call.currentThis] GlobalContext.initial)).currentThis =
        .ok (some b, s2) ∧
      b.addr ≠ a.addr ∧ b ≠ a ∧ b.decl.type ≠ a.decl.type) := by
  have hk : GlobalContext.initial.m_currentContract = none := by decide
  obtain ⟨a, s1, h1, _, h3, h4⟩ :=
    currentThis_type_and_distinct_keys GlobalContext.initial reachable_initial
  rw [hk] at h3
  have hs : s1 = GlobalContext.after [Call.currentThis] GlobalContext.initial := by
    have hd : GlobalContext.initial.currentThis =
        .ok (some ⟨36, ⟨-28, "this", SolType.emptyTuple⟩⟩,
          GlobalContext.after [Call.currentThis] GlobalContext.initial) := by decide
    rw [hd] at h1
    cases h1
    rfl
  subst hs
  obtain ⟨b, s2, h5, h6⟩ := h4 [Call.setCurrentContract 5]
    (GlobalContext.after [Call.setCurrentContract 5]
      (GlobalContext.after [Call.currentThis] GlobalContext.initial)) (by decide) (by decide)
  exact ⟨reachable_initial, a, b, _, s2, h1, h3, h5, h6⟩

/-! ## Claims on the list of magic variables -/

/-- C5: any two magic variables of the constructed context that have the same name have
the same id and the same kind (both are callables of one kind, or neither is a
callable). -/
theorem same_name_same_id_and_kind :
    ∃ g : GlobalContext, GlobalContext.ctor = .ok g ∧
      ∀ a ∈ g.m_magicVariables, ∀ b ∈ g.m_magicVariables, a.decl.name = b.decl.name →
        a.decl.id = b.decl.id ∧ a.decl.type.kind = b.decl.type.kind :=
  ⟨GlobalContext.initial, ctor_eq_ok, by decide⟩

/-- C6: the constructed context has exactly two magic variables named "require", in this
order: one with parameter types (bool) and one with parameter types (bool, string memory),
both without return types, with id -18 (the value of `magicVariableToID` at "require"),
kind `Require` and mutability `Pure`. -/
theorem require_overloads :
    ∃ g : GlobalContext, GlobalContext.ctor = .ok g ∧
      magicVariableToID "require" = .ok (-18) ∧
      (named "require" g.m_magicVariables).map (fun i => i.decl.type.parameterTypes) =
        [[SolType.elementary "bool"],
         [SolType.elementary "bool", SolType.elementary "string memory"]] ∧
      (named "require" g.m_magicVariables).map (fun i => i.decl.type.returnParameterTypes) =
        [[], []] ∧
      (named "require" g.m_magicVariables).map (fun i => i.decl.id) = [-18, -18] ∧
      (named "require" g.m_magicVariables).map (fun i => i.decl.type.kind) =
        [some FunctionType.Kind.Require, some FunctionType.Kind.Require] ∧
      (named "require" g.m_magicVariables).map (fun i => i.decl.type.stateMutability) =
        [some StateMutability.Pure, some StateMutability.Pure] :=
  ⟨GlobalContext.initial, ctor_eq_ok, by decide, by decide, by decide, by decide, by decide,
    by decide⟩

/-- C7: after construction followed by any sequence of calls, `declarations` returns what
it returns right after construction: 36 pointers, the 30 declarations of
`constructMagicVariables` in their order followed by batchvalidatesign,
validatemultisign, verifyMintProof, verifyBurnProof, verifyTransferProof and
pedersenHash. -/
theorem declarations_fixed (calls : List Call) :
    ∃ (g0 g : GlobalContext) (vars : List Instance) (next : Nat),
      GlobalContext.ctor = .ok g0 ∧ session calls = .ok g ∧
      constructMagicVariables 0 = .ok (vars, next) ∧ vars.length = 30 ∧
      g.declarations = g0.declarations ∧ g.declarations.length = 36 ∧
      g.declarations.take 30 = vars ∧
      (g.declarations.drop 30).map (fun i => i.decl.name) =
        ["batchvalidatesign", "validatemultisign", "verifyMintProof", "verifyBurnProof",
         "verifyTransferProof", "pedersenHash"] := by
  obtain ⟨g, hg, hw⟩ := session_ok calls
  have hd : g.declarations = GlobalContext.initial.declarations := by
    simp only [GlobalContext.declarations, hw.catalog]
  refine ⟨GlobalContext.initial, g, GlobalContext.initial.declarations.take 30, 30,
    ctor_eq_ok, hg, by decide, by decide, hd, ?_, ?_, ?_⟩
  · rw [hd]
    decide
  · rw [hd]
  · rw [hd]
    decide

/-- C8: the constructed context has exactly one magic variable named "verifyMintProof";
its six parameter types are bytes32[9], bytes32[2] (both in memory), uint64, bytes32,
bytes32[33] (in memory) and uint256, its only return type is the dynamic memory array
bytes32[], its mutability is `Pure` and its kind is `verifyMintProof`. -/
theorem verifyMintProof_signature :
    ∃ g : GlobalContext, GlobalContext.ctor = .ok g ∧
      (named "verifyMintProof" g.m_magicVariables).map
        (fun i => (i.decl.type.parameterTypes, i.decl.type.returnParameterTypes,
          i.decl.type.stateMutability, i.decl.type.kind)) =
        [([SolType.array DataLocation.Memory (SolType.fixedBytes 32) (some 9),
            SolType.array DataLocation.Memory (SolType.fixedBytes 32) (some 2),
            SolType.uint 64,
            SolType.fixedBytes 32,
            SolType.array DataLocation.Memory (SolType.fixedBytes 32) (some 33),
            SolType.uint 256],
          [SolType.array DataLocation.Memory (SolType.fixedBytes 32) none],
          some StateMutability.Pure, some FunctionType.Kind.verifyMintProof)] ∧
      (named "verifyMintProof" g.m_magicVariables).map
        (fun i => i.decl.type.parameterTypes.length) = [6] :=
  ⟨GlobalContext.initial, ctor_eq_ok, by decide, by decide⟩

/-- C9: `constructMagicVariables` and the constructor do not throw, and after
construction followed by any sequence of calls neither `currentThis` nor `currentSuper`
throws; every name handed to `magicVariableToID` on the way (the names of the magic
variables, "this" and "super") is one of the names of its chain. -/
theorem no_unknown_magic_variable (calls : List Call) :
    Except.threw (constructMagicVariables 0) = false ∧
    (∃ g0 : GlobalContext, GlobalContext.ctor = .ok g0 ∧
      ∀ i ∈ g0.m_magicVariables, i.decl.name ∈ magicVariableNames) ∧
    "this" ∈ magicVariableNames ∧ "super" ∈ magicVariableNames ∧
    ∃ g : GlobalContext, session calls = .ok g ∧
      Except.threw g.currentThis = false ∧ Except.threw g.currentSuper = false := by
  obtain ⟨g, hg, hw⟩ := session_ok calls
  obtain ⟨_, _, h1, _⟩ := hw.currentThis
  obtain ⟨_, _, h2, _⟩ := hw.currentSuper
  refine ⟨by decide, ⟨GlobalContext.initial, ctor_eq_ok, by decide⟩, by decide, by decide,
    g, hg, ?_, ?_⟩
  · rw [h1]
    rfl
  · rw [h2]
    rfl

/-- C10: each of verifyMintProof, verifyBurnProof, verifyTransferProof, pedersenHash,
batchvalidatesign and validatemultisign names exactly one magic variable of the
constructed context; that magic variable is a callable with mutability `Pure` and exactly
one return type, and no other magic variable has its kind. -/
theorem extension_builtins :
    ∃ g : GlobalContext, GlobalContext.ctor = .ok g ∧
      ∀ name ∈ ["verifyMintProof", "verifyBurnProof", "verifyTransferProof", "pedersenHash",
          "batchvalidatesign", "validatemultisign"],
        (named name g.m_magicVariables).length = 1 ∧
        ∀ a ∈ named name g.m_magicVariables,
          a.decl.type.stateMutability = some StateMutability.Pure ∧
          a.decl.type.returnParameterTypes.length = 1 ∧
          a.decl.type.kind ≠ none ∧
          ∀ b ∈ g.m_magicVariables, b.decl.type.kind = a.decl.type.kind → b = a :=
  ⟨GlobalContext.initial, ctor_eq_ok, by decide⟩

/-- C11: two magic variables of the constructed context with different names have
different ids. Two callables with different names have the same kind exactly when the
names are keccak256 and sha3 or selfdestruct and suicide, and then their parameter types,
return types and mutability are equal; keccak256 and sha3 have kind `KECCAK256` and ids
-8 and -23, selfdestruct and suicide have kind `Selfdestruct` and ids -21 and -24. -/
theorem distinct_names_distinct_ids :
    ∃ g : GlobalContext, GlobalContext.ctor = .ok g ∧
      (∀ a ∈ g.m_magicVariables, ∀ b ∈ g.m_magicVariables,
        a.decl.name ≠ b.decl.name → a.decl.id ≠ b.decl.id) ∧
      (∀ a ∈ g.m_magicVariables, ∀ b ∈ g.m_magicVariables,
        a.decl.name ≠ b.decl.name → a.decl.type.kind ≠ none →
        (a.decl.type.kind = b.decl.type.kind ↔
          (a.decl.name, b.decl.name) ∈
            [("keccak256", "sha3"), ("sha3", "keccak256"),
             ("selfdestruct", "suicide"), ("suicide", "selfdestruct")])) ∧
      (∀ a ∈ g.m_magicVariables, ∀ b ∈ g.m_magicVariables,
        a.decl.name ≠ b.decl.name → a.decl.type.kind ≠ none →
        a.decl.type.kind = b.decl.type.kind →
        a.decl.type.parameterTypes = b.decl.type.parameterTypes ∧
        a.decl.type.returnParameterTypes = b.decl.type.returnParameterTypes ∧
        a.decl.type.stateMutability = b.decl.type.stateMutability) ∧
      (named "keccak256" g.m_magicVariables).map (fun i => (i.decl.id, i.decl.type.kind)) =
        [(-8, some FunctionType.Kind.KECCAK256)] ∧
      (named "sha3" g.m_magicVariables).map (fun i => (i.decl.id, i.decl.type.kind)) =
        [(-23, some FunctionType.Kind.KECCAK256)] ∧
      (named "selfdestruct" g.m_magicVariables).map
        (fun i => (i.decl.id, i.decl.type.kind)) =
        [(-21, some FunctionType.Kind.Selfdestruct)] ∧
      (named "suicide" g.m_magicVariables).map (fun i => (i.decl.id, i.decl.type.kind)) =
        [(-24, some FunctionType.Kind.Selfdestruct)] :=
  ⟨GlobalContext.initial, ctor_eq_ok, by decide, by decide, by decide, by decide, by decide,
    by decide, by decide⟩

/-- Counterexample to C13: among the magic variables of the constructed context there
are no two with different names and the same kind to whose names `magicVariableToID`
gives the same id. -/
theorem no_same_kind_pair_shares_id :
    ¬ ∃ a ∈ GlobalContext.initial.m_magicVariables,
      ∃ b ∈ GlobalContext.initial.m_magicVariables,
        a.decl.name ≠ b.decl.name ∧ a.decl.type.kind ≠ none ∧
        a.decl.type.kind = b.decl.type.kind ∧
        magicVariableToID a.decl.name = magicVariableToID b.decl.name := by
  decide

/-- C13 as amended: `magicVariableToID` gives different ids to any two different names of
its chain; in particular the pairs of different names with the same kind, keccak256 with
sha3 and selfdestruct with suicide, get different ids, and such a pair exists. -/
theorem same_kind_pairs_have_distinct_ids :
    ∃ g : GlobalContext, GlobalContext.ctor = .ok g ∧
      (∃ a ∈ g.m_magicVariables, ∃ b ∈ g.m_magicVariables,
        a.decl.name ≠ b.decl.name ∧ a.decl.type.kind ≠ none ∧
        a.decl.type.kind = b.decl.type.kind ∧
        magicVariableToID a.decl.name ≠ magicVariableToID b.decl.name) ∧
      (∀ a ∈ g.m_magicVariables, ∀ b ∈ g.m_magicVariables,
        a.decl.name ≠ b.decl.name → a.decl.type.kind = b.decl.type.kind →
        magicVariableToID a.decl.name ≠ magicVariableToID b.decl.name) ∧
      (∀ n1 ∈ magicVariableNames, ∀ n2 ∈ magicVariableNames,
        n1 ≠ n2 → magicVariableToID n1 ≠ magicVariableToID n2) :=
  ⟨GlobalContext.initial, ctor_eq_ok, by decide, by decide, by decide⟩

/-- C17, the code at the constructed context: the one magic variable named
"batchvalidatesign" has the parameters (bytes32 hash, bytes[] memory signatures,
address[] memory addresses) of the comment, and one return value named "ok" whose type is
bytes32, not the bool of the comment. -/
theorem batchvalidatesign_returns_bytes32 :
    ∃ g : GlobalContext, GlobalContext.ctor = .ok g ∧
      (named "batchvalidatesign" g.m_magicVariables).map
        (fun i => (i.decl.type.parameterTypes, i.decl.type.parameterNames)) =
        [([SolType.fixedBytes 32,
            SolType.array DataLocation.Memory SolType.bytesMemory none,
            SolType.array DataLocation.Memory SolType.address none],
          ["hash", "signatures", "addresses"])] ∧
      (named "batchvalidatesign" g.m_magicVariables).map
        (fun i => (i.decl.type.returnParameterTypes, i.decl.type.returnParameterNames)) =
        [([SolType.fixedBytes 32], ["ok"])] ∧
      (named "batchvalidatesign" g.m_magicVariables).map
        (fun i => i.decl.type.returnParameterTypes) ≠ [[SolType.boolean]] ∧
      (named "validatemultisign" g.m_magicVariables).map
        (fun i => (i.decl.type.returnParameterTypes, i.decl.type.returnParameterNames)) =
        [([SolType.boolean], ["ok"])] :=
  ⟨GlobalContext.initial, ctor_eq_ok, by decide, by decide, by decide, by decide⟩

/-- C19: the names of the magic variables of the constructed context are exactly the
names of the chain of `magicVariableToID` other than "this" and "super"; there are 36
magic variables with 34 different names, and the names carried by more than one are
"require" and "revert", each carried by exactly two. -/
theorem catalog_names :
    ∃ g : GlobalContext, GlobalContext.ctor = .ok g ∧
      (∀ n ∈ magicVariableNames, n ≠ "this" → n ≠ "super" →
        ∃ i ∈ g.m_magicVariables, i.decl.name = n) ∧
      (∀ i ∈ g.m_magicVariables,
        i.decl.name ∈ magicVariableNames ∧ i.decl.name ≠ "this" ∧ i.decl.name ≠ "super") ∧
      g.m_magicVariables.length = 36 ∧
      (g.m_magicVariables.map (fun i => i.decl.name)).dedup.length = 34 ∧
      (∀ i ∈ g.m_magicVariables,
        (1 < (named i.decl.name g.m_magicVariables).length ↔
          i.decl.name = "require" ∨ i.decl.name = "revert")) ∧
      (named "require" g.m_magicVariables).length = 2 ∧
      (named "revert" g.m_magicVariables).length = 2 :=
  ⟨GlobalContext.initial, ctor_eq_ok, by decide, by decide, by decide, by decide, by decide,
    by decide, by decide⟩

/-- C20: for each of verifyMintProof, verifyBurnProof, verifyTransferProof, pedersenHash,
batchvalidatesign and validatemultisign, the magic variable of that name in the
constructed context has as many parameter names as parameter types, as many return names
as return types, and no parameter name twice. -/
theorem extension_builtins_names :
    ∃ g : GlobalContext, GlobalContext.ctor = .ok g ∧
      ∀ name ∈ ["verifyMintProof", "verifyBurnProof", "verifyTransferProof", "pedersenHash",
          "batchvalidatesign", "validatemultisign"],
        (named name g.m_magicVariables).length = 1 ∧
        ∀ a ∈ named name g.m_magicVariables,
          a.decl.type.parameterNames.length = a.decl.type.parameterTypes.length ∧
          a.decl.type.returnParameterNames.length =
            a.decl.type.returnParameterTypes.length ∧
          0 < a.decl.type.parameterNames.length ∧
          a.decl.type.parameterNames.Nodup :=
  ⟨GlobalContext.initial, ctor_eq_ok, by decide⟩

end GlobalContext

/-! ## The image of the name-to-id function -/

/-- C18: on the 36 names of its chain `magicVariableToID` is injective, and the ids it
returns there are exactly the integers from -37 to -1 other than -9. -/
theorem magicVariableToID_injective_and_image :
    (∀ n1 ∈ magicVariableNames, ∀ n2 ∈ magicVariableNames,
      magicVariableToID n1 = magicVariableToID n2 → n1 = n2) ∧
    (∀ id : Int, (∃ n ∈ magicVariableNames, magicVariableToID n = .ok id) ↔
      (-37 ≤ id ∧ id ≤ -1 ∧ id ≠ -9)) := by
  refine ⟨by decide, ?_⟩
  have hmap : magicVariableNames.map magicVariableToID =
      [.ok (-1), .ok (-2), .ok (-3), .ok (-4), .ok (-5), .ok (-6), .ok (-7), .ok (-8),
       .ok (-10), .ok (-11), .ok (-12), .ok (-13), .ok (-14), .ok (-15), .ok (-16),
       .ok (-17), .ok (-18), .ok (-19), .ok (-20), .ok (-21), .ok (-22), .ok (-23),
       .ok (-24), .ok (-25), .ok (-26), .ok (-27), .ok (-28), .ok (-29), .ok (-30),
       .ok (-31), .ok (-32), .ok (-33), .ok (-34), .ok (-35), .ok (-36), .ok (-37)] := by
    decide
  intro id
  have hmem : (∃ n ∈ magicVariableNames, magicVariableToID n = .ok id) ↔
      (Except.ok id : Except String Int) ∈ magicVariableNames.map magicVariableToID := by
    simp only [List.mem_map]
  rw [hmem, hmap]
  simp only [List.mem_cons, Except.ok.injEq, List.mem_singleton, List.not_mem_nil, or_false]
  omega

/-! ## Frame conditions of the members -/

namespace PointerMap

theorem mem_keys_iff (m : PointerMap) (k : ContractKey) : k ∈ m.keys ↔ find m k ≠ none := by
  rw [Ne, find_eq_none_iff]
  simp only [keys, List.mem_map]
  constructor
  · rintro ⟨e, he, rfl⟩ h
    exact h e he rfl
  · intro h
    by_contra hc
    exact h (fun e he hk => hc ⟨e, he, hk⟩)

theorem find_touch_ne (m : PointerMap) {k k2 : ContractKey} (h : k2 ≠ k) :
    find (touch m k) k2 = find m k2 := by
  unfold touch
  cases hf : find m k with
  | some v => rfl
  | none =>
    simp only [find_append, find, h.symm, if_false]
    cases find m k2 <;> rfl

theorem find_map_ite_ne (m : PointerMap) {k k2 : ContractKey} (v : Option Instance)
    (h : k2 ≠ k) :
    find (m.map (fun e => if e.1 = k then (e.1, v) else e)) k2 = find m k2 := by
  induction m with
  | nil => rfl
  | cons e m ih =>
    obtain ⟨k1, v1⟩ := e
    show find ((if k1 = k then (k1, v) else (k1, v1)) :: _) k2 = _
    by_cases h1 : k1 = k
    · have h2 : k1 ≠ k2 := fun h3 => h (h3 ▸ h1)
      rw [if_pos h1]
      simp only [find, if_neg h2]
      exact ih
    · rw [if_neg h1]
      simp only [find]
      rw [ih]

theorem find_assign_ne (m : PointerMap) {k k2 : ContractKey} (v : Option Instance)
    (h : k2 ≠ k) : find (assign m k v) k2 = find m k2 := by
  rw [assign, find_map_ite_ne _ v h, find_touch_ne m h]

end PointerMap

namespace GlobalContext

/-- On any context `currentThis` returns, and it changes neither the current contract,
nor the magic variables, nor the map of `super`, nor the entry of `this` under a key
other than the current contract. -/
theorem currentThis_frame (g : GlobalContext) :
    ∃ (p : Option Instance) (s : GlobalContext), g.currentThis = .ok (p, s) ∧
      s.m_currentContract = g.m_currentContract ∧
      s.m_magicVariables = g.m_magicVariables ∧
      s.m_superPointer = g.m_superPointer ∧
      ∀ k, k ≠ g.m_currentContract → s.m_thisPointer.find k = g.m_thisPointer.find k := by
  cases h : (g.m_thisPointer.touch g.m_currentContract).get g.m_currentContract with
  | some q =>
    refine ⟨((g.m_thisPointer.touch g.m_currentContract).touch g.m_currentContract).get
        g.m_currentContract,
      { g with
        m_thisPointer :=
          (g.m_thisPointer.touch g.m_currentContract).touch g.m_currentContract },
      ?_, rfl, rfl, rfl, ?_⟩
    · simp [currentThis, h, pure, Except.pure, bind, Except.bind]
    · intro k hk
      simp only [PointerMap.find_touch_ne _ hk]
  | none =>
    refine ⟨(((g.m_thisPointer.touch g.m_currentContract).assign g.m_currentContract
          (some ⟨g.nextAddr, ⟨-28, "this", thisType g.m_currentContract⟩⟩)).touch
          g.m_currentContract).get g.m_currentContract,
      { g with
        m_thisPointer :=
          ((g.m_thisPointer.touch g.m_currentContract).assign g.m_currentContract
            (some ⟨g.nextAddr, ⟨-28, "this", thisType g.m_currentContract⟩⟩)).touch
            g.m_currentContract
        nextAddr := g.nextAddr + 1 },
      ?_, rfl, rfl, rfl, ?_⟩
    · have ht : (match g.m_currentContract with
          | some c => SolType.contract c false
          | none => SolType.emptyTuple) = thisType g.m_currentContract := by
        cases g.m_currentContract <;> rfl
      simp [currentThis, h, ht, magicVariableToID_this, make_shared, pure, Except.pure, bind,
        Except.bind]
    · intro k hk
      simp only [PointerMap.find_touch_ne _ hk, PointerMap.find_assign_ne _ _ hk]

/-- On any context `currentSuper` returns, and it changes neither the current contract,
nor the magic variables, nor the map of `this`, nor the entry of `super` under a key
other than the current contract. -/
theorem currentSuper_frame (g : GlobalContext) :
    ∃ (p : Option Instance) (s : GlobalContext), g.currentSuper = .ok (p, s) ∧
      s.m_currentContract = g.m_currentContract ∧
      s.m_magicVariables = g.m_magicVariables ∧
      s.m_thisPointer = g.m_thisPointer ∧
      ∀ k, k ≠ g.m_currentContract → s.m_superPointer.find k = g.m_superPointer.find k := by
  cases h : (g.m_superPointer.touch g.m_currentContract).get g.m_currentContract with
  | some q =>
    refine ⟨((g.m_superPointer.touch g.m_currentContract).touch g.m_currentContract).get
        g.m_currentContract,
      { g with
        m_superPointer :=
          (g.m_superPointer.touch g.m_currentContract).touch g.m_currentContract },
      ?_, rfl, rfl, rfl, ?_⟩
    · simp [currentSuper, h, pure, Except.pure, bind, Except.bind]
    · intro k hk
      simp only [PointerMap.find_touch_ne _ hk]
  | none =>
    refine ⟨(((g.m_superPointer.touch g.m_currentContract).assign g.m_currentContract
          (some ⟨g.nextAddr, ⟨-25, "super", superType g.m_currentContract⟩⟩)).touch
          g.m_currentContract).get g.m_currentContract,
      { g with
        m_superPointer :=
          ((g.m_superPointer.touch g.m_currentContract).assign g.m_currentContract
            (some ⟨g.nextAddr, ⟨-25, "super", superType g.m_currentContract⟩⟩)).touch
            g.m_currentContract
        nextAddr := g.nextAddr + 1 },
      ?_, rfl, rfl, rfl, ?_⟩
    · have ht : (match g.m_currentContract with
          | some c => SolType.contract c true
          | none => SolType.emptyTuple) = superType g.m_currentContract := by
        cases g.m_currentContract <;> rfl
      simp [currentSuper, h, ht, magicVariableToID_super, make_shared, pure, Except.pure,
        bind, Except.bind]
    · intro k hk
      simp only [PointerMap.find_touch_ne _ hk, PointerMap.find_assign_ne _ _ hk]

theorem Call.contracts_cons (c : Call) (cs : List Call) :
    Call.contracts (c :: cs) = Call.contracts [c] ++ Call.contracts cs := by
  cases c <;> rfl

/-- The keys touched by one call: the current contract changes only through
`setCurrentContract`, and a map gains an entry at most under the current contract. -/
theorem call_keys {g s : GlobalContext} {c : Call} (h : g.call c = .ok s) :
    (s.m_currentContract = g.m_currentContract ∨
      ∃ d, c = Call.setCurrentContract d ∧ s.m_currentContract = some d) ∧
    (∀ k ∈ s.m_thisPointer.keys, k ∈ g.m_thisPointer.keys ∨ k = g.m_currentContract) ∧
    (∀ k ∈ s.m_superPointer.keys, k ∈ g.m_superPointer.keys ∨ k = g.m_currentContract) := by
  cases c with
  | setCurrentContract d =>
    simp only [GlobalContext.call, pure, Except.pure, Except.ok.injEq] at h
    subst h
    exact ⟨Or.inr ⟨d, rfl, rfl⟩, fun k hk => Or.inl hk, fun k hk => Or.inl hk⟩
  | declarations =>
    simp only [GlobalContext.call, pure, Except.pure, Except.ok.injEq] at h
    subst h
    exact ⟨Or.inl rfl, fun k hk => Or.inl hk, fun k hk => Or.inl hk⟩
  | currentThis =>
    obtain ⟨p, s1, h1, hk1, _, hsup, hfr⟩ := currentThis_frame g
    simp only [GlobalContext.call, h1, bind, Except.bind, pure, Except.pure,
      Except.ok.injEq] at h
    subst h
    refine ⟨Or.inl hk1, ?_, ?_⟩
    · intro k hk
      by_cases hc : k = g.m_currentContract
      · exact Or.inr hc
      · rw [PointerMap.mem_keys_iff, hfr k hc, ← PointerMap.mem_keys_iff] at hk
        exact Or.inl hk
    · intro k hk
      rw [hsup] at hk
      exact Or.inl hk
  | currentSuper =>
    obtain ⟨p, s1, h1, hk1, _, hthis, hfr⟩ := currentSuper_frame g
    simp only [GlobalContext.call, h1, bind, Except.bind, pure, Except.pure,
      Except.ok.injEq] at h
    subst h
    refine ⟨Or.inl hk1, ?_, ?_⟩
    · intro k hk
      rw [hthis] at hk
      exact Or.inl hk
    · intro k hk
      by_cases hc : k = g.m_currentContract
      · exact Or.inr hc
      · rw [PointerMap.mem_keys_iff, hfr k hc, ← PointerMap.mem_keys_iff] at hk
        exact Or.inl hk

/-- The keys touched by a sequence of calls lie among the keys allowed at the start and
the contracts passed to `setCurrentContract`. -/
theorem run_keys (calls : List Call) :
    ∀ (g s : GlobalContext) (allowed : List ContractKey),
      g.m_currentContract ∈ allowed →
      (∀ k ∈ g.m_thisPointer.keys, k ∈ allowed) →
      (∀ k ∈ g.m_superPointer.keys, k ∈ allowed) →
      GlobalContext.run calls g = .ok s →
      s.m_currentContract ∈ allowed ++ (Call.contracts calls).map some ∧
      (∀ k ∈ s.m_thisPointer.keys, k ∈ allowed ++ (Call.contracts calls).map some) ∧
      (∀ k ∈ s.m_superPointer.keys, k ∈ allowed ++ (Call.contracts calls).map some) := by
  induction calls with
  | nil =>
    intro g s allowed hc ht hs h
    simp only [GlobalContext.run, pure, Except.pure, Except.ok.injEq] at h
    subst h
    simpa [Call.contracts] using ⟨hc, ht, hs⟩
  | cons c cs ih =>
    intro g s allowed hc ht hs h
    cases hcall : g.call c with
    | error e => simp [GlobalContext.run, hcall, bind, Except.bind] at h
    | ok g1 =>
      simp only [GlobalContext.run, hcall, bind, Except.bind] at h
      obtain ⟨k1, k2, k3⟩ := call_keys hcall
      have hsub : ∀ k, k ∈ allowed → k ∈ allowed ++ (Call.contracts [c]).map some :=
        fun k hk => List.mem_append_left _ hk
      have hc1 : g1.m_currentContract ∈ allowed ++ (Call.contracts [c]).map some := by
        rcases k1 with e | ⟨d, rfl, e⟩
        · rw [e]
          exact hsub _ hc
        · rw [e]
          exact List.mem_append_right _ (by simp [Call.contracts])
      have key : ∀ k, k = g.m_currentContract → k ∈ allowed := fun k e => e ▸ hc
      have ht1 : ∀ k ∈ g1.m_thisPointer.keys,
          k ∈ allowed ++ (Call.contracts [c]).map some := fun k hk =>
        hsub k ((k2 k hk).elim (ht k) (key k))
      have hs1 : ∀ k ∈ g1.m_superPointer.keys,
          k ∈ allowed ++ (Call.contracts [c]).map some := fun k hk =>
        hsub k ((k3 k hk).elim (hs k) (key k))
      have := ih g1 s _ hc1 ht1 hs1 h
      rw [Call.contracts_cons c cs, List.map_append, ← List.append_assoc]
      exact this

/-! ## Claims on ownership, frames and the size of the maps -/

/-- C12: after construction followed by any sequence of calls, every magic variable of
the context, every declaration stored in the maps of `this` and `super`, and the
declarations returned by `currentThis` and `currentSuper` have the id that
`magicVariableToID` gives to their own name, and this id is negative; the declaration
returned by `currentThis` is named "this" with id -28, the one returned by
`currentSuper` is named "super" with id -25. -/
theorem owned_declarations_ids (calls : List Call) :
    ∃ g : GlobalContext, session calls = .ok g ∧
      (∀ i ∈ g.m_magicVariables,
        magicVariableToID i.decl.name = .ok i.decl.id ∧ i.decl.id < 0) ∧
      (∀ k v, (k, v) ∈ g.m_thisPointer ++ g.m_superPointer →
        ∃ p : Instance, v = some p ∧
          magicVariableToID p.decl.name = .ok p.decl.id ∧ p.decl.id < 0) ∧
      (∃ (a : Instance) (s : GlobalContext), g.currentThis = .ok (some a, s) ∧
        a.decl.name = "this" ∧ a.decl.id = -28 ∧
        magicVariableToID a.decl.name = .ok a.decl.id ∧ a.decl.id < 0) ∧
      (∃ (b : Instance) (t : GlobalContext), g.currentSuper = .ok (some b, t) ∧
        b.decl.name = "super" ∧ b.decl.id = -25 ∧
        magicVariableToID b.decl.name = .ok b.decl.id ∧ b.decl.id < 0) := by
  obtain ⟨g, hg, hw⟩ := session_ok calls
  refine ⟨g, hg, ?_, ?_, ?_, ?_⟩
  · rw [hw.catalog]
    decide
  · intro k v hmem
    rcases List.mem_append.mp hmem with h | h
    · obtain ⟨p, hp, hd, _⟩ := hw.thisMap.entries k v h
      exact ⟨p, hp, by
        rw [hd]
        exact ⟨magicVariableToID_this, (by decide : (-28 : Int) < 0)⟩⟩
    · obtain ⟨p, hp, hd, _⟩ := hw.superMap.entries k v h
      exact ⟨p, hp, by
        rw [hd]
        exact ⟨magicVariableToID_super, (by decide : (-25 : Int) < 0)⟩⟩
  · obtain ⟨a, s, h, _, _, hd, _⟩ := hw.currentThis
    refine ⟨a, s, h, ?_⟩
    rw [hd]
    exact ⟨rfl, rfl, magicVariableToID_this, (by decide : (-28 : Int) < 0)⟩
  · obtain ⟨b, t, h, _, _, hd, _⟩ := hw.currentSuper
    refine ⟨b, t, h, ?_⟩
    rw [hd]
    exact ⟨rfl, rfl, magicVariableToID_super, (by decide : (-25 : Int) < 0)⟩

/-- C14: in a reachable context `currentSuper` returns a declaration named "super"; when
contract `c` is current its type is the super view of `c`, which is neither the contract
type of `c` nor the super view of another contract; when no contract is current its type
is the empty tuple. -/
theorem currentSuper_type (g : GlobalContext) (hg : g.Reachable) :
    ∃ (b : Instance) (t : GlobalContext), g.currentSuper = .ok (some b, t) ∧
      b.decl.name = "super" ∧
      match g.m_currentContract with
      | some c =>
        b.decl.type = SolType.contract c true ∧ b.decl.type ≠ SolType.contract c false ∧
          ∀ d : ContractDefinition, d ≠ c → b.decl.type ≠ SolType.contract d true
      | none => b.decl.type = SolType.emptyTuple := by
  obtain ⟨b, t, h, _, _, hd, _⟩ := hg.wellFormed.currentSuper
  refine ⟨b, t, h, by rw [hd], ?_⟩
  cases hk : g.m_currentContract with
  | none =>
    rw [hk] at hd
    simp [hd, superType]
  | some c =>
    rw [hk] at hd
    refine ⟨by simp [hd, superType], by simp [hd, superType], ?_⟩
    intro d hne
    simp only [hd, superType, ne_eq, SolType.contract.injEq, and_true]
    exact fun e => hne e.symm

/-- Witness of C14 at the sample context, where contract 5 is current: the type of the
returned declaration is the super view of contract 5, not its contract type and not the
super view of contract 7. -/
theorem currentSuper_type_witness :
    GlobalContext.sample.Reachable ∧ GlobalContext.sample.m_currentContract = some 5 ∧
    ∃ (b : Instance) (t : GlobalContext),
      GlobalContext.sample.currentSuper = .ok (some b, t) ∧ b.decl.name = "super" ∧
      b.decl.type = SolType.contract 5 true ∧ b.decl.type ≠ SolType.contract 5 false ∧
      b.decl.type ≠ SolType.contract 7 true := by
  have hk : GlobalContext.sample.m_currentContract = some 5 := by decide
  obtain ⟨b, t, h1, h2, h3⟩ := currentSuper_type GlobalContext.sample reachable_sample
  rw [hk] at h3
  exact ⟨reachable_sample, hk, b, t, h1, h2, h3.1, h3.2.1, h3.2.2 7 (by decide)⟩

/-- C15: `setCurrentContract(c)` makes `c` the current contract and leaves the magic
variables and both maps as they are; `currentThis` returns and leaves the current
contract, the magic variables and the map of `super` as they are, and leaves the entry of
`this` under every key other than the current contract as it is; symmetrically for
`currentSuper`. -/
theorem frame_conditions (g : GlobalContext) (c : ContractDefinition) :
    ((g.setCurrentContract c).m_currentContract = some c ∧
      (g.setCurrentContract c).m_magicVariables = g.m_magicVariables ∧
      (g.setCurrentContract c).m_thisPointer = g.m_thisPointer ∧
      (g.setCurrentContract c).m_superPointer = g.m_superPointer) ∧
    (∃ (p : Option Instance) (s : GlobalContext), g.currentThis = .ok (p, s) ∧
      s.m_currentContract = g.m_currentContract ∧
      s.m_magicVariables = g.m_magicVariables ∧
      s.m_superPointer = g.m_superPointer ∧
      ∀ k, k ≠ g.m_currentContract → s.m_thisPointer.find k = g.m_thisPointer.find k) ∧
    (∃ (p : Option Instance) (s : GlobalContext), g.currentSuper = .ok (p, s) ∧
      s.m_currentContract = g.m_currentContract ∧
      s.m_magicVariables = g.m_magicVariables ∧
      s.m_thisPointer = g.m_thisPointer ∧
      ∀ k, k ≠ g.m_currentContract → s.m_superPointer.find k = g.m_superPointer.find k) :=
  ⟨⟨rfl, rfl, rfl, rfl⟩, currentThis_frame g, currentSuper_frame g⟩

/-- C16: after construction followed by any sequence of calls, each of the two maps has
no key twice, its keys are the null key or contracts passed to `setCurrentContract` so
far, and its size is at most one plus the number of different contracts passed so far;
and every key of a map is still a key of that map after any further calls. -/
theorem maps_bounded_and_growing (calls further : List Call) :
    ∃ g g2 : GlobalContext, session calls = .ok g ∧ GlobalContext.run further g = .ok g2 ∧
      g.m_thisPointer.keys.Nodup ∧ g.m_superPointer.keys.Nodup ∧
      (∀ k ∈ g.m_thisPointer.keys ++ g.m_superPointer.keys,
        k = none ∨ ∃ c ∈ Call.contracts calls, k = some c) ∧
      g.m_thisPointer.length ≤ 1 + (Call.contracts calls).dedup.length ∧
      g.m_superPointer.length ≤ 1 + (Call.contracts calls).dedup.length ∧
      (∀ k ∈ g.m_thisPointer.keys, k ∈ g2.m_thisPointer.keys) ∧
      (∀ k ∈ g.m_superPointer.keys, k ∈ g2.m_superPointer.keys) := by
  obtain ⟨g, hg, hw⟩ := session_ok calls
  obtain ⟨g2, hrun, hw2, keepT, keepS⟩ := hw.run further
  have hinit : GlobalContext.initial.m_currentContract = none ∧
      GlobalContext.initial.m_thisPointer = [] ∧
      GlobalContext.initial.m_superPointer = [] := by decide
  have hrun0 := hg
  rw [session_eq] at hrun0
  obtain ⟨_, kT, kS⟩ := run_keys calls GlobalContext.initial g [none]
    (by rw [hinit.1]; exact List.mem_singleton.mpr rfl)
    (by rw [hinit.2.1]; intro k hk; simp [PointerMap.keys] at hk)
    (by rw [hinit.2.2]; intro k hk; simp [PointerMap.keys] at hk) hrun0
  have bound : ∀ m : PointerMap, m.keys.Nodup →
      (∀ k ∈ m.keys, k ∈ [none] ++ (Call.contracts calls).map some) →
      m.length ≤ 1 + (Call.contracts calls).dedup.length := by
    intro m hn hsub
    have hsub2 : m.keys ⊆ none :: (Call.contracts calls).dedup.map some := by
      intro k hk
      have := hsub k hk
      simp only [List.singleton_append, List.mem_cons, List.mem_map] at this
      rcases this with e | ⟨c, hc, e⟩
      · exact List.mem_cons.mpr (Or.inl e)
      · exact List.mem_cons_of_mem _ (List.mem_map.mpr ⟨c, List.mem_dedup.mpr hc, e⟩)
    have hlen := (List.subperm_of_subset hn hsub2).length_le
    simp only [PointerMap.keys, List.length_map, List.length_cons] at hlen
    omega
  have grow : ∀ (m m2 : PointerMap) (id : Int) (name : String)
      (typeOf : ContractKey → SolType) (next : Nat), m.WellFormed id name typeOf next →
      (∀ k q, m.find k = some (some q) → m2.find k = some (some q)) →
      ∀ k ∈ m.keys, k ∈ m2.keys := by
    intro m m2 id name typeOf next hwm keep k hk
    rw [PointerMap.mem_keys_iff] at hk
    rcases hwm.find_cases k with h | ⟨q, h⟩
    · exact absurd h hk
    · rw [PointerMap.mem_keys_iff, keep k q h]
      exact Option.some_ne_none _
  refine ⟨g, g2, hg, hrun, hw.thisMap.keys, hw.superMap.keys, ?_, bound _ hw.thisMap.keys kT,
    bound _ hw.superMap.keys kS, grow _ _ _ _ _ _ hw.thisMap keepT,
    grow _ _ _ _ _ _ hw.superMap keepS⟩
  intro k hk
  have hmem : k ∈ [none] ++ (Call.contracts calls).map some := by
    rcases List.mem_append.mp hk with h | h
    · exact kT k h
    · exact kS k h
  simp only [List.singleton_append, List.mem_cons, List.mem_map] at hmem
  rcases hmem with e | ⟨c, hc, e⟩
  · exact Or.inl e
  · exact Or.inr ⟨c, hc, e.symm⟩

end GlobalContext

end solidity.frontend
